import Mathlib

/-!
Verification of the response-normalization, identity-guard, history and chat
orchestration layer of the YouTube-Agent application.

The embedding models JavaScript runtime values with the inductive `Js`
(`undef` is JavaScript `undefined`), property access with `getProp`
(`none` models a thrown `TypeError` on `null`/`undefined` receivers),
object-literal spread with `spreadFields`/`setField` (insertion-order
semantics: an overriding key keeps its original position, a fresh key is
appended), and `JSON.parse` with a fuel-based recursive-descent parser
`jsonParse` producing `Js` values (numbers are kept as their source
numerals, which is enough because no code under verification computes
with numbers).
-/

/-- Model of a JavaScript runtime value (also used for parsed JSON values,
which never contain `undef`).  Numbers are kept as their literal numeral
text. -/
inductive Js where
  | undef : Js
  | null : Js
  | bool : Bool → Js
  | num : String → Js
  | str : String → Js
  | arr : List Js → Js
  | obj : List (String × Js) → Js

mutual

/-- Decidable equality of runtime values (used for `===`/`!==` and for
key-based dedup in the history store). -/
def Js.decEq : (a b : Js) → Decidable (a = b)
  | .undef, .undef => isTrue rfl
  | .null, .null => isTrue rfl
  | .bool x, .bool y =>
      if h : x = y then isTrue (by rw [h])
      else isFalse (fun e => h (by injection e))
  | .num x, .num y =>
      if h : x = y then isTrue (by rw [h])
      else isFalse (fun e => h (by injection e))
  | .str x, .str y =>
      if h : x = y then isTrue (by rw [h])
      else isFalse (fun e => h (by injection e))
  | .arr xs, .arr ys =>
      match Js.decEqList xs ys with
      | isTrue h => isTrue (by rw [h])
      | isFalse h => isFalse (fun e => h (by injection e))
  | .obj fs, .obj gs =>
      match Js.decEqFields fs gs with
      | isTrue h => isTrue (by rw [h])
      | isFalse h => isFalse (fun e => h (by injection e))
  | .undef, .null => isFalse (fun h => Js.noConfusion h)
  | .undef, .bool _ => isFalse (fun h => Js.noConfusion h)
  | .undef, .num _ => isFalse (fun h => Js.noConfusion h)
  | .undef, .str _ => isFalse (fun h => Js.noConfusion h)
  | .undef, .arr _ => isFalse (fun h => Js.noConfusion h)
  | .undef, .obj _ => isFalse (fun h => Js.noConfusion h)
  | .null, .undef => isFalse (fun h => Js.noConfusion h)
  | .null, .bool _ => isFalse (fun h => Js.noConfusion h)
  | .null, .num _ => isFalse (fun h => Js.noConfusion h)
  | .null, .str _ => isFalse (fun h => Js.noConfusion h)
  | .null, .arr _ => isFalse (fun h => Js.noConfusion h)
  | .null, .obj _ => isFalse (fun h => Js.noConfusion h)
  | .bool _, .undef => isFalse (fun h => Js.noConfusion h)
  | .bool _, .null => isFalse (fun h => Js.noConfusion h)
  | .bool _, .num _ => isFalse (fun h => Js.noConfusion h)
  | .bool _, .str _ => isFalse (fun h => Js.noConfusion h)
  | .bool _, .arr _ => isFalse (fun h => Js.noConfusion h)
  | .bool _, .obj _ => isFalse (fun h => Js.noConfusion h)
  | .num _, .undef => isFalse (fun h => Js.noConfusion h)
  | .num _, .null => isFalse (fun h => Js.noConfusion h)
  | .num _, .bool _ => isFalse (fun h => Js.noConfusion h)
  | .num _, .str _ => isFalse (fun h => Js.noConfusion h)
  | .num _, .arr _ => isFalse (fun h => Js.noConfusion h)
  | .num _, .obj _ => isFalse (fun h => Js.noConfusion h)
  | .str _, .undef => isFalse (fun h => Js.noConfusion h)
  | .str _, .null => isFalse (fun h => Js.noConfusion h)
  | .str _, .bool _ => isFalse (fun h => Js.noConfusion h)
  | .str _, .num _ => isFalse (fun h => Js.noConfusion h)
  | .str _, .arr _ => isFalse (fun h => Js.noConfusion h)
  | .str _, .obj _ => isFalse (fun h => Js.noConfusion h)
  | .arr _, .undef => isFalse (fun h => Js.noConfusion h)
  | .arr _, .null => isFalse (fun h => Js.noConfusion h)
  | .arr _, .bool _ => isFalse (fun h => Js.noConfusion h)
  | .arr _, .num _ => isFalse (fun h => Js.noConfusion h)
  | .arr _, .str _ => isFalse (fun h => Js.noConfusion h)
  | .arr _, .obj _ => isFalse (fun h => Js.noConfusion h)
  | .obj _, .undef => isFalse (fun h => Js.noConfusion h)
  | .obj _, .null => isFalse (fun h => Js.noConfusion h)
  | .obj _, .bool _ => isFalse (fun h => Js.noConfusion h)
  | .obj _, .num _ => isFalse (fun h => Js.noConfusion h)
  | .obj _, .str _ => isFalse (fun h => Js.noConfusion h)
  | .obj _, .arr _ => isFalse (fun h => Js.noConfusion h)

/-- Decidable equality of value lists. -/
def Js.decEqList : (xs ys : List Js) → Decidable (xs = ys)
  | [], [] => isTrue rfl
  | x :: xs, y :: ys =>
      match Js.decEq x y, Js.decEqList xs ys with
      | isTrue h1, isTrue h2 => isTrue (by rw [h1, h2])
      | isFalse h1, _ => isFalse (fun e => h1 (by injection e))
      | _, isFalse h2 => isFalse (fun e => h2 (by injection e))
  | [], _ :: _ => isFalse (fun h => List.noConfusion h)
  | _ :: _, [] => isFalse (fun h => List.noConfusion h)

/-- Decidable equality of field lists. -/
def Js.decEqFields : (fs gs : List (String × Js)) → Decidable (fs = gs)
  | [], [] => isTrue rfl
  | (k, v) :: fs, (k2, v2) :: gs =>
      if hk : k = k2 then
        match Js.decEq v v2, Js.decEqFields fs gs with
        | isTrue h1, isTrue h2 => isTrue (by rw [hk, h1, h2])
        | isFalse h1, _ =>
            isFalse (fun e => by
              injection e with e1 e2
              exact h1 (congrArg Prod.snd e1))
        | _, isFalse h2 =>
            isFalse (fun e => by
              injection e with e1 e2
              exact h2 e2)
      else
        isFalse (fun e => by
          injection e with e1 e2
          exact hk (congrArg Prod.fst e1))
  | [], _ :: _ => isFalse (fun h => List.noConfusion h)
  | _ :: _, [] => isFalse (fun h => List.noConfusion h)

end

instance : DecidableEq Js := Js.decEq

/-- A JSON numeral denotes zero iff ignoring a leading minus sign every
character of its integer/fraction part is `0` or `.` (the exponent cannot
make a nonzero mantissa zero). -/
def zeroNumeral (s : String) : Bool :=
  let cs := match s.toList with
    | '-' :: rest => rest
    | l => l
  let mantissa := cs.takeWhile (fun c => c != 'e' && c != 'E')
  mantissa.all (fun c => c == '0' || c == '.')

/-- JavaScript truthiness:  `undefined`, `null`, `false`, `0`/`-0`/`NaN` and
the empty string are falsy; every object and array is truthy. -/
def truthy : Js → Bool
  | .undef => false
  | .null => false
  | .bool b => b
  | .num s => !zeroNumeral s
  | .str s => s != ""
  | .arr _ => true
  | .obj _ => true

/-- JavaScript `a || b`. -/
def jsOr (a b : Js) : Js := if truthy a then a else b

/-- First binding of a key in an object's field list (a JavaScript object
never holds duplicate keys, so first- and last-occurrence lookup agree on
values that can actually arise). -/
def lookupField : List (String × Js) → String → Option Js
  | [], _ => none
  | (k', v') :: rest, k => if k' = k then some v' else lookupField rest k

/-- Assigning a key in an object literal: an existing key keeps its
position and gets the new value, a fresh key is appended. -/
def setField : List (String × Js) → String → Js → List (String × Js)
  | [], k, v => [(k, v)]
  | (k', v') :: rest, k, v =>
      if k' = k then (k, v) :: rest else (k', v') :: setField rest k v

/-- Assigning a sequence of keys in order (the explicit properties written
after a spread in an object literal). -/
def setFields (base : List (String × Js)) (kvs : List (String × Js)) :
    List (String × Js) :=
  kvs.foldl (fun acc kv => setField acc kv.1 kv.2) base

/-- Own enumerable properties contributed by `...x` in an object literal:
an object's fields, the indexed characters of a string, the indexed
elements of an array, and nothing for primitives. -/
def spreadFields : Js → List (String × Js)
  | .obj fs => fs
  | .str s => s.toList.enum.map (fun p => (toString p.1, Js.str (String.mk [p.2])))
  | .arr xs => xs.enum.map (fun p => (toString p.1, p.2))
  | _ => []

/-- Property access `x[k]`: `none` models the `TypeError` thrown for a
`null`/`undefined` receiver; on primitives the properties read by the code
under verification are all absent, hence `undefined`. -/
def getProp : Js → String → Option Js
  | .undef, _ => none
  | .null, _ => none
  | .obj fs, k => some ((lookupField fs k).getD Js.undef)
  | _, _ => some Js.undef

/-- Total property read used in statements: the value of `x[k]` under the
assumption the access does not throw. -/
def jsGet (x : Js) (k : String) : Js := (getProp x k).getD Js.undef

/-- String conversion used by template-literal interpolation for the
values that actually reach a template in the code under verification. -/
def jsDisplay : Js → String
  | .undef => "undefined"
  | .null => "null"
  | .bool b => if b then "true" else "false"
  | .num s => s
  | .str s => s
  | .arr _ => ""
  | .obj _ => "[object Object]"

/-- The backtick character. -/
def tickChar : Char := Char.ofNat 96

/-- The white-space and line-terminator set recognised by JavaScript
`String.prototype.trim` and by `\s` (the common members). -/
def jsWs (c : Char) : Bool :=
  c == ' ' || c == '\t' || c == '\n' || c == '\r' || c == '\x0b' ||
  c == '\x0c' || c == '\u00A0' || c == '\u2028' || c == '\u2029' ||
  c == '\uFEFF'

/-- JavaScript `text.trim()` on a character list. -/
def jsTrim (cs : List Char) : List Char :=
  ((cs.dropWhile jsWs).reverse.dropWhile jsWs).reverse

/-- One global (`/g`) literal replacement with the empty string, fuelled
so that concrete runs reduce in the kernel: a single left-to-right pass
removing non-overlapping occurrences of `pat`.  Each step consumes at
least one character, so fuel of length plus one never runs out. -/
def removeAllFuel (pat : List Char) : Nat → List Char → List Char
  | 0, cs => cs
  | _ + 1, [] => []
  | fuel + 1, c :: rest =>
      if pat.isPrefixOf (c :: rest) && !pat.isEmpty then
        removeAllFuel pat fuel (rest.drop (pat.length - 1))
      else
        c :: removeAllFuel pat fuel rest

/-- One global (`/g`) literal replacement with the empty string. -/
def removeAll (pat : List Char) (cs : List Char) : List Char :=
  removeAllFuel pat (cs.length + 1) cs

/-- Decidable substring test (used both by the embedding and by
statements). -/
def containsSub (pat : List Char) : List Char → Bool
  | [] => pat.isEmpty
  | c :: rest => pat.isPrefixOf (c :: rest) || containsSub pat rest

/-- Three consecutive backticks at the head of the text. -/
def isTicks3 (cs : List Char) : Bool :=
  match cs with
  | a :: b :: c :: _ => a == tickChar && b == tickChar && c == tickChar
  | _ => false

/-- Content strictly before the first occurrence of three consecutive
backticks (`none` when there is no such occurrence): the lazily matched
body of the fence regex up to its closing fence. -/
def splitAtFence : List Char → Option (List Char)
  | [] => none
  | c :: rest =>
      if isTicks3 (c :: rest) then some []
      else (splitAtFence rest).map (fun g => c :: g)

/-- The capture group of the fence regex (three backticks, an optional
greedy `json` tag, a lazy body, three closing backticks) evaluated with
JavaScript backtracking: earliest start position, the `json` tag consumed
when present, the shortest body closed by the next fence. -/
def fenceGroup : List Char → Option (List Char)
  | [] => none
  | c :: rest =>
      if isTicks3 (c :: rest) then
        let after := (c :: rest).drop 3
        if ['j', 's', 'o', 'n'].isPrefixOf after then
          match splitAtFence (after.drop 4) with
          | some g => some g
          | none =>
              match splitAtFence after with
              | some g => some g
              | none => fenceGroup rest
        else
          match splitAtFence after with
          | some g => some g
          | none => fenceGroup rest
      else fenceGroup rest

/-- Strip a literal prefix when present, then any following white space
(the `replace` fallbacks anchored at the start). -/
def stripPrefixWs (pat : List Char) (cs : List Char) : List Char :=
  if pat.isPrefixOf cs then (cs.drop pat.length).dropWhile jsWs else cs

/-- Strip a trailing run of white space followed by three closing
backticks (the end-anchored `replace` fallback). -/
def stripSuffixFence (cs : List Char) : List Char :=
  if [tickChar, tickChar, tickChar].isSuffixOf cs then
    ((cs.reverse.drop 3).dropWhile jsWs).reverse
  else cs

section JsonParser

/-- JSON insignificant white space (RFC 8259: space, tab, line feed,
carriage return — strictly smaller than the JavaScript `\s` set). -/
def jsonWs (c : Char) : Bool :=
  c == ' ' || c == '\t' || c == '\n' || c == '\r'

/-- Hexadecimal digit value. -/
def hexVal (c : Char) : Option Nat :=
  if '0' ≤ c ∧ c ≤ '9' then some (c.toNat - '0'.toNat)
  else if 'a' ≤ c ∧ c ≤ 'f' then some (c.toNat - 'a'.toNat + 10)
  else if 'A' ≤ c ∧ c ≤ 'F' then some (c.toNat - 'A'.toNat + 10)
  else none

/-- Decimal digit test. -/
def isDigit (c : Char) : Bool := decide ('0' ≤ c ∧ c ≤ '9')

/-- Parse the body of a JSON string after the opening quote, decoding the
standard escapes; a `\uXXXX` escape becomes the corresponding character
(an unpaired surrogate, unrepresentable as a scalar value, maps to the
replacement character — such inputs never carry a brace or quote, so
parse success is unaffected).  The fuel argument only bounds recursion
depth; every call site passes at least the remaining length plus one,
which each step strictly consumes, so the `0` case is unreachable. -/
def parseStringBody : Nat → List Char → Option (List Char × List Char)
  | 0, _ => none
  | _ + 1, [] => none
  | fuel + 1, c :: rest =>
      if c == '"' then some ([], rest)
      else if c == '\\' then
        match rest with
        | [] => none
        | e :: rest2 =>
            let plain (d : Char) : Option (List Char × List Char) :=
              (parseStringBody fuel rest2).map (fun p => (d :: p.1, p.2))
            if e == '"' then plain '"'
            else if e == '\\' then plain '\\'
            else if e == '/' then plain '/'
            else if e == 'b' then plain '\x08'
            else if e == 'f' then plain '\x0c'
            else if e == 'n' then plain '\n'
            else if e == 'r' then plain '\r'
            else if e == 't' then plain '\t'
            else if e == 'u' then
              match rest2 with
              | h1 :: h2 :: h3 :: h4 :: rest3 =>
                  match hexVal h1, hexVal h2, hexVal h3, hexVal h4 with
                  | some a, some b, some cc, some d =>
                      let n := ((a * 16 + b) * 16 + cc) * 16 + d
                      let ch := if h : n.isValidChar then Char.ofNatAux n h
                                else '�'
                      (parseStringBody fuel rest3).map (fun p => (ch :: p.1, p.2))
                  | _, _, _, _ => none
              | _ => none
            else none
      else if c.toNat < 0x20 then none
      else (parseStringBody fuel rest).map (fun p => (c :: p.1, p.2))

/-- Parse a JSON numeral (an optional minus sign, an integer part with no
leading zero, an optional fraction, an optional exponent), returning its
literal text. -/
def parseNumber (cs : List Char) : Option (List Char × List Char) :=
  let (sign, r1) := match cs with
    | '-' :: r => ([('-' : Char)], r)
    | r => (([] : List Char), r)
  match r1 with
  | [] => none
  | d :: _ =>
      if !isDigit d then none
      else
        let intPart := r1.takeWhile isDigit
        let r2 := r1.dropWhile isDigit
        if d == '0' && intPart.length != 1 then none
        else
          let fracRes : Option (List Char × List Char) :=
            match r2 with
            | '.' :: r =>
                let f := r.takeWhile isDigit
                if f.isEmpty then none
                else some (['.'] ++ f, r.dropWhile isDigit)
            | _ => some ([], r2)
          match fracRes with
          | none => none
          | some (fracPart, r3) =>
              let expRes : Option (List Char × List Char) :=
                match r3 with
                | e :: r =>
                    if e == 'e' || e == 'E' then
                      let (es, rr) := match r with
                        | '+' :: rb => ([e, '+'], rb)
                        | '-' :: rb => ([e, '-'], rb)
                        | rb => ([e], rb)
                      let digs := rr.takeWhile isDigit
                      if digs.isEmpty then none
                      else some (es ++ digs, rr.dropWhile isDigit)
                    else some ([], r3)
                | [] => some ([], r3)
              match expRes with
              | none => none
              | some (expPart, r4) =>
                  some (sign ++ intPart ++ fracPart ++ expPart, r4)

/-- The grammar production the recursive-descent step is parsing: a value,
an object body (`first` marks that no member has been read yet), a
non-empty member list, an array body, or a non-empty element list. -/
inductive PMode where
  | val : PMode
  | objm : Bool → PMode
  | members : PMode
  | arrm : Bool → PMode
  | elems : PMode

/-- One recursive-descent parser for all five productions (kept as a
single structurally recursive function so that concrete runs reduce in
the kernel).  A member list is returned wrapped in `Js.obj` and an
element list in `Js.arr`.  A duplicate object key keeps its original
position and takes the later value, as `JSON.parse` does.  The fuel only
bounds recursion depth and is passed amply by `jsonParse`. -/
def parseRun : Nat → PMode → List Char → Option (Js × List Char)
  | 0, _, _ => none
  | fuel + 1, .val, cs =>
      match cs with
      | [] => none
      | c :: rest =>
          if c == '\x7b' then parseRun fuel (.objm true) (rest.dropWhile jsonWs)
          else if c == '[' then parseRun fuel (.arrm true) (rest.dropWhile jsonWs)
          else if c == '"' then
            (parseStringBody (rest.length + 1) rest).map
              (fun p => (Js.str (String.mk p.1), p.2))
          else if c == 't' then
            if ['r', 'u', 'e'].isPrefixOf rest then some (Js.bool true, rest.drop 3)
            else none
          else if c == 'f' then
            if ['a', 'l', 's', 'e'].isPrefixOf rest then
              some (Js.bool false, rest.drop 4)
            else none
          else if c == 'n' then
            if ['u', 'l', 'l'].isPrefixOf rest then some (Js.null, rest.drop 3)
            else none
          else
            (parseNumber (c :: rest)).map (fun p => (Js.num (String.mk p.1), p.2))
  | fuel + 1, .objm first, cs =>
      match cs with
      | [] => none
      | c :: rest =>
          if c == '\x7d' && first then some (Js.obj [], rest)
          else
            match parseRun fuel .members (c :: rest) with
            | some (Js.obj fields, r) =>
                match r.dropWhile jsonWs with
                | c2 :: r2 => if c2 == '\x7d' then some (Js.obj fields, r2) else none
                | [] => none
            | _ => none
  | fuel + 1, .members, cs =>
      match cs with
      | c :: rest =>
          if c == '"' then
            match parseStringBody (rest.length + 1) rest with
            | none => none
            | some (key, r1) =>
                match r1.dropWhile jsonWs with
                | ':' :: r2 =>
                    match parseRun fuel .val (r2.dropWhile jsonWs) with
                    | none => none
                    | some (v, r3) =>
                        match r3.dropWhile jsonWs with
                        | ',' :: r4 =>
                            match parseRun fuel .members (r4.dropWhile jsonWs) with
                            | some (Js.obj fields, r5) =>
                                some (Js.obj (setFields [(String.mk key, v)] fields), r5)
                            | _ => none
                        | r4 => some (Js.obj [(String.mk key, v)], r4)
                | _ => none
          else none
      | [] => none
  | fuel + 1, .arrm first, cs =>
      match cs with
      | [] => none
      | c :: rest =>
          if c == ']' && first then some (Js.arr [], rest)
          else
            match parseRun fuel .elems (c :: rest) with
            | some (Js.arr xs, r) =>
                match r.dropWhile jsonWs with
                | c2 :: r2 => if c2 == ']' then some (Js.arr xs, r2) else none
                | [] => none
            | _ => none
  | fuel + 1, .elems, cs =>
      match parseRun fuel .val cs with
      | none => none
      | some (v, r) =>
          match r.dropWhile jsonWs with
          | ',' :: r2 =>
              match parseRun fuel .elems (r2.dropWhile jsonWs) with
              | some (Js.arr xs, r3) => some (Js.arr (v :: xs), r3)
              | _ => none
          | r2 => some (Js.arr [v], r2)

/-- Model of `JSON.parse`: parse one value surrounded by optional white space and
require the whole text to be consumed; `none` models a thrown
`SyntaxError`.  The fuel is ample: the descent makes at most four steps
per consumed character. -/
def jsonParse (cs : List Char) : Option Js :=
  match parseRun (4 * cs.length + 8) .val (cs.dropWhile jsonWs) with
  | some (v, rest) => if (rest.dropWhile jsonWs).isEmpty then some v else none
  | none => none

end JsonParser

section TolerantParse

/-- The three-backtick fence opener as a pattern. -/
def fencePat : List Char := [tickChar, tickChar, tickChar]

/-- The fenced-prefix fallback trims of `cleanJsonString`: strip a leading
fence (optionally tagged `json`) with its trailing white space, then a
trailing fence with its leading white space. -/
def fenceFallback (cs : List Char) : List Char :=
  stripSuffixFence (stripPrefixWs fencePat (stripPrefixWs (fencePat ++ ['j', 's', 'o', 'n']) cs))

/-- Model of `cleanJsonString` of `services/geminiService.ts` (current variant):
trim, remove the two noise patterns globally, then — when the text
contains a fence — replace it by the regex capture between the first
fence pair when that capture is non-empty (an empty capture is falsy in
the `matches && matches[1]` test), else apply the literal prefix/suffix
trims; finally trim again. -/
def cleanJsonString (text : String) : String :=
  let clean := jsTrim text.toList
  let clean := removeAll "ABLES_START".toList clean
  let clean := removeAll "\x7b:.language-json\x7d".toList clean
  let clean :=
    if containsSub fencePat clean then
      match fenceGroup clean with
      | some g => if g.isEmpty then fenceFallback clean else jsTrim g
      | none => fenceFallback clean
    else clean
  String.mk (jsTrim clean)

/-- The fuelled single pass of `repairJson`; each step consumes at least
one character, so fuel of length plus one never runs out. -/
def repairJsonFuel : Nat → List Char → List Char
  | 0, cs => cs
  | _ + 1, [] => []
  | fuel + 1, c :: rest =>
      if c == ',' then
        match rest.dropWhile jsWs with
        | d :: rest2 =>
            if d == ']' || d == '\x7d' then d :: repairJsonFuel fuel rest2
            else c :: repairJsonFuel fuel rest
        | [] => c :: repairJsonFuel fuel rest
      else c :: repairJsonFuel fuel rest

/-- Model of `repairJson`: one global pass removing a comma followed by optional
white space and a closing bracket or brace (the repair is not iterated). -/
def repairJson (cs : List Char) : List Char :=
  repairJsonFuel (cs.length + 1) cs

/-- Model of `parseGenerativeJson` (current variant): clean, strict parse, then one
repair pass and a retry; `none` models the thrown
"Failed to parse AI response." error. -/
def parseGenerativeJson (text : String) : Option Js :=
  let cleaned := cleanJsonString text
  match jsonParse cleaned.toList with
  | some v => some v
  | none => jsonParse (repairJson cleaned.toList)

/-- Modelled from the spec (and the older `parseGenerativeJson` variant):
the span from the first `\x7b` to the last `\x7d` of a text, `none` when
either brace is missing. -/
def braceSpan (cs : List Char) : Option (List Char) :=
  let afterOpen := cs.dropWhile (fun c => c != '\x7b')
  if afterOpen.isEmpty then none
  else
    let upToClose := (afterOpen.reverse.dropWhile (fun c => c != '\x7d')).reverse
    if upToClose.isEmpty then none else some upToClose

/-- Modelled from the spec: the claim's comparison baseline — strictly
parse the span from the first `\x7b` to the last `\x7d` of the
fence-stripped text. -/
def specSpanParse (text : String) : Option Js :=
  (braceSpan (cleanJsonString text).toList).bind jsonParse

end TolerantParse

section Sanitizer

/-- Model of `ensureArray`: keep an array, replace anything else by `[]`. -/
def ensureArray : Js → Js
  | .arr xs => .arr xs
  | _ => .arr []

/-- One study-note section: spread the element and re-assign `points` to
`ensureArray(s.points)`; reading `points` on a `null`/`undefined` element
throws, which the `none` case propagates. -/
def sanitizeStudyNote (s : Js) : Option Js := do
  let p ← getProp s "points"
  some (Js.obj (setField (spreadFields s) "points" (ensureArray p)))

/-- The `reviewDetails` value: a truthy source value yields a freshly
built record with every sub-field defaulted independently, anything else
yields `undefined`. -/
def sanitizeReview (rd : Js) : Option Js :=
  if truthy rd then do
    let item ← getProp rd "item"
    let rating ← getProp rd "rating"
    let pros ← getProp rd "pros"
    let others ← getProp rd "cons"
    let verdict ← getProp rd "verdict"
    some (Js.obj [("item", jsOr item (Js.str "Unknown")),
                  ("rating", rating),
                  ("pros", ensureArray pros),
                  ("cons", ensureArray others),
                  ("verdict", jsOr verdict (Js.str "No verdict."))])
  else some Js.undef

/-- Model of `sanitizeData` (current variant): a falsy input returns the empty
object (the `\x7b\x7d as AnalysisData` cast); otherwise the input is
spread and the normalised fields are assigned over it.  `none` models the
`TypeError` thrown while mapping over a `studyNotes` array that contains
`null`/`undefined` elements. -/
def sanitizeData (data : Js) : Option Js :=
  if truthy data then do
    let vt ← getProp data "videoType"
    let ts ← getProp data "timestamps"
    let th ← getProp data "themes"
    let sn ← getProp data "studyNotes"
    let sn2 ← (match ensureArray sn with
               | .arr xs => xs
               | _ => []).mapM sanitizeStudyNote
    let q ← getProp data "quotes"
    let sp ← getProp data "speakers"
    let st ← getProp data "subTopics"
    let rd ← getProp data "reviewDetails"
    let rd2 ← sanitizeReview rd
    some (Js.obj (setFields (spreadFields data)
      [("videoType", jsOr vt (Js.str "General")),
       ("timestamps", ensureArray ts),
       ("themes", ensureArray th),
       ("studyNotes", Js.arr sn2),
       ("quotes", ensureArray q),
       ("speakers", ensureArray sp),
       ("subTopics", ensureArray st),
       ("reviewDetails", rd2)]))
  else some (Js.obj [])

/-- The explicit properties `sanitizeData` assigns over the spread input,
given the mapped study notes and the normalised review value. -/
def sanitizedFields (x : Js) (sn2 : List Js) (rd2 : Js) : List (String × Js) :=
  [("videoType", jsOr (jsGet x "videoType") (Js.str "General")),
   ("timestamps", ensureArray (jsGet x "timestamps")),
   ("themes", ensureArray (jsGet x "themes")),
   ("studyNotes", Js.arr sn2),
   ("quotes", ensureArray (jsGet x "quotes")),
   ("speakers", ensureArray (jsGet x "speakers")),
   ("subTopics", ensureArray (jsGet x "subTopics")),
   ("reviewDetails", rd2)]

end Sanitizer

section UrlAndGuard

/-- The `\w` class of the identifier regex. -/
def wordChar (c : Char) : Bool :=
  decide (('a' ≤ c ∧ c ≤ 'z') ∨ ('A' ≤ c ∧ c ≤ 'Z') ∨ ('0' ≤ c ∧ c ≤ '9')) || c == '_'

/-- The regex `.` (no dot-all flag): any character except a line
terminator. -/
def dotAny (c : Char) : Bool :=
  !(c == '\n' || c == '\r' || c == '\u2028' || c == '\u2029')

/-- Alternative `&v=`. -/
def altAmp : List Char → Option (List Char)
  | '&' :: 'v' :: '=' :: rest => some rest
  | _ => none

/-- Alternatives from `watch?v=` on. -/
def altWatch : List Char → Option (List Char)
  | 'w' :: 'a' :: 't' :: 'c' :: 'h' :: '?' :: 'v' :: '=' :: rest => some rest
  | cs => altAmp cs

/-- Alternatives from `embed/` on. -/
def altEmbed : List Char → Option (List Char)
  | 'e' :: 'm' :: 'b' :: 'e' :: 'd' :: '/' :: rest => some rest
  | cs => altWatch cs

/-- Alternatives from `u/(word char)/` on. -/
def altU (cs : List Char) : Option (List Char) :=
  match cs with
  | 'u' :: '/' :: w :: '/' :: rest => if wordChar w then some rest else altEmbed cs
  | _ => altEmbed cs

/-- Alternatives from `v/` on. -/
def altV : List Char → Option (List Char)
  | 'v' :: '/' :: rest => some rest
  | cs => altU cs

/-- The full alternation of the identifier regex, tried in source order at
one position; `youtu.be/` spells an unescaped regex dot. -/
def matchAlt (cs : List Char) : Option (List Char) :=
  match cs with
  | 'y' :: 'o' :: 'u' :: 't' :: 'u' :: d :: 'b' :: 'e' :: '/' :: rest =>
      if dotAny d then some rest else altV cs
  | _ => altV cs

/-- The greedy leading `.*` of the anchored regex: the last position
reachable through line-terminator-free text at which the alternation
matches wins; the result is the text after the matched alternative. -/
def scanLast : List Char → Option (List Char) → Option (List Char)
  | [], acc => acc
  | c :: rest, acc =>
      let acc' := match matchAlt (c :: rest) with
                  | some r => some r
                  | none => acc
      if dotAny c then scanLast rest acc' else acc'

/-- Model of `getYouTubeId`: match the fixed URL-shape regex and keep the capture
after the alternative (everything up to `#`, `&` or `?`) exactly when it
has 11 characters. -/
def getYouTubeId (url : String) : Option String :=
  if url = "" then none
  else
    match scanLast url.toList none with
    | none => none
    | some rest =>
        let cap := rest.takeWhile (fun c => !(c == '#' || c == '&' || c == '?'))
        if cap.length = 11 then some (String.mk cap) else none

/-- Modelled platform behavior: the fragment of WHATWG URL parsing the
validator relies on — an absolute URL with an alphabetic scheme and a
`://` authority yields its lower-cased host (up to `/` `?` `#` `:`),
anything else throws (`none`). -/
def parseUrlHostname (url : String) : Option String :=
  let cs := url.toList
  let scheme := cs.takeWhile (fun c => c != ':')
  let rest := cs.dropWhile (fun c => c != ':')
  if scheme.isEmpty then none
  else if !scheme.all (fun c => decide (('a' ≤ c ∧ c ≤ 'z') ∨ ('A' ≤ c ∧ c ≤ 'Z'))) then
    none
  else
    match rest with
    | ':' :: '/' :: '/' :: r =>
        let host := r.takeWhile (fun c => !(c == '/' || c == '?' || c == '#' || c == ':'))
        if host.isEmpty then none else some (String.mk (host.map Char.toLower))
    | _ => none

/-- Model of `validateYouTubeUrl`: `none` means the URL passed validation, `some`
carries the user-facing validation message. -/
def validateYouTubeUrl (urlToValidate : String) : Option String :=
  if (jsTrim urlToValidate.toList).isEmpty then some "Please enter a YouTube URL."
  else
    match parseUrlHostname urlToValidate with
    | none => some "Invalid URL format."
    | some hostname =>
        if !(containsSub "youtube.com".toList hostname.toList ||
             containsSub "youtu.be".toList hostname.toList) then
          some "Please provide a valid YouTube URL (youtube.com or youtu.be)."
        else
          match getYouTubeId urlToValidate with
          | none => some "Could not find a valid Video ID. Please check the link format."
          | some _ => none

/-- The `Video Not Found` error text of `analyzeUrlWithGrounding`. -/
def notFoundMsg (videoTitle : String) : String :=
  "Video Not Found: The AI could not locate a transcript, description, or detailed summary for \"" ++
  videoTitle ++ "\". \n\nTip: Try 'Audio / Upload' mode to analyze it directly."

/-- The `Analysis Mismatch` error text of `handleAnalyze`. -/
def mismatchMsg (resolved : String) : String :=
  "Analysis Mismatch: The AI analyzed a different video (ID: " ++ resolved ++ ")."

/-- The identifier checks run on a URL-mode result, in execution order:
the sentinel check inside `analyzeUrlWithGrounding` followed by the
mismatch check inside `handleAnalyze`. -/
def videoIdGuard (requestedId : Js) (videoTitle : String) (data : Js) :
    Except String Js :=
  if jsGet data "videoId" == Js.str "NOT_FOUND" then
    Except.error (notFoundMsg videoTitle)
  else if truthy requestedId && truthy (jsGet data "videoId") &&
          !(jsGet data "videoId" == requestedId) &&
          !(jsGet data "videoId" == Js.str "NOT_FOUND") then
    Except.error (mismatchMsg (jsDisplay (jsGet data "videoId")))
  else Except.ok data

/-- The URL branch of `handleAnalyze`: validation gates the analysis call
(the thunk stands for the network request), whose result then passes the
identifier guard. -/
def handleAnalyzeUrl (url : String) (analyze : Unit → Except String Js) :
    Except String Js :=
  match validateYouTubeUrl url with
  | some validationError => Except.error validationError
  | none =>
      (analyze ()).bind (fun result =>
        videoIdGuard (match getYouTubeId url with
                      | some v => Js.str v
                      | none => Js.null)
          "YouTube Video" result)

end UrlAndGuard

section HistoryStore

/-- One entry of the persisted history. -/
structure HistoryItem where
  id : Js
  title : Js
  date : Nat
  thumbnail : Js
  type : Js
  data : Js
deriving DecidableEq

/-- Build the history item saved for a sanitized record: keyed by the
record's external identifier when truthy, else by the current time
rendered as a string. -/
def mkHistoryItem (sd : Js) (now : Nat) : HistoryItem :=
  { id := jsOr (jsGet sd "videoId") (Js.str (toString now)),
    title := jsGet sd "title",
    date := now,
    type := jsGet sd "videoType",
    thumbnail :=
      if truthy (jsGet sd "videoId") then
        Js.str ("https://img.youtube.com/vi/" ++ jsDisplay (jsGet sd "videoId") ++
                "/mqdefault.jpg")
      else Js.undef,
    data := sd }

/-- The list update of `saveToHistory`: drop entries with the new key,
prepend the new item, keep the most recent 10. -/
def saveItem (newItem : HistoryItem) (history : List HistoryItem) :
    List HistoryItem :=
  (newItem :: history.filter (fun h => !(h.id == newItem.id))).take 10

/-- Model of `saveToHistory`: sanitize the record (`none` propagates its
`TypeError`), build the item, update the list. -/
def saveToHistory (newData : Js) (history : List HistoryItem) (now : Nat) :
    Option (List HistoryItem) :=
  (sanitizeData newData).map (fun sd => saveItem (mkHistoryItem sd now) history)

/-- Re-sanitizing one loaded history entry: spread the item and replace
its `data` by the sanitized record; `none` models a throw. -/
def sanitizeHistoryEntry (item : Js) : Option Js := do
  let d ← getProp item "data"
  let sd ← sanitizeData d
  some (Js.obj (setField (spreadFields item) "data" sd))

/-- The result of healing the loaded entries: a throw while mapping is
caught and leaves the store empty. -/
def healHistory : Option (List Js) → List Js
  | some safe => safe
  | none => []

/-- Dispatch on the parse outcome: unparsable content or a non-array
value leaves the store empty; an array is re-sanitized entry by entry. -/
def parseHistory : Option Js → List Js
  | none => []
  | some (Js.arr items) => healHistory (items.mapM sanitizeHistoryEntry)
  | some _ => []

/-- The startup history load: absent storage, unparsable content, a
non-array value, or a throw while healing the entries all leave the store
empty (the corrupted storage is also cleared, a side effect not modelled
here); a valid array is re-sanitized entry by entry. -/
def loadHistory (saved : Option String) : List Js :=
  match saved with
  | none => []
  | some s => parseHistory (jsonParse s.toList)

end HistoryStore

section ChatRouter

/-- One chat message. -/
structure ChatMsg where
  role : String
  content : String
  timestamp : Nat
deriving DecidableEq, Repr

/-- The two conversational contexts of the unified chat interface. -/
inductive ChatContext where
  | video : ChatContext
  | research : ChatContext
deriving DecidableEq, Repr

/-- The chat component state touched by `handleSend`. -/
structure ChatState where
  videoMessages : List ChatMsg
  researchMessages : List ChatMsg
  input : String
  isLoading : Bool
deriving DecidableEq, Repr

/-- The synchronous prefix of `handleSend`: resolve the submitted content
(`textInput || input`), reject when it trims to nothing or while any
question is loading, else optimistically append the user message to the
active context, clear the input and set the single shared loading flag. -/
def handleSendStart (textInput : Option String) (activeContext : ChatContext)
    (now : Nat) (st : ChatState) : ChatState :=
  let content := match textInput with
    | some t => if t = "" then st.input else t
    | none => st.input
  if (jsTrim content.toList).isEmpty || st.isLoading then st
  else
    let userMessage : ChatMsg := { role := "user", content := content, timestamp := now }
    match activeContext with
    | .video =>
        { st with videoMessages := st.videoMessages ++ [userMessage],
                  input := "", isLoading := true }
    | .research =>
        { st with researchMessages := st.researchMessages ++ [userMessage],
                  input := "", isLoading := true }

/-- The completion of `handleSend` for the captured context: append the
model-authored (or locally synthesized error) message and clear the
loading flag. -/
def handleSendFinish (activeContext : ChatContext) (responseText : String)
    (now : Nat) (st : ChatState) : ChatState :=
  let botMessage : ChatMsg := { role := "model", content := responseText, timestamp := now }
  match activeContext with
  | .video =>
      { st with videoMessages := st.videoMessages ++ [botMessage], isLoading := false }
  | .research =>
      { st with researchMessages := st.researchMessages ++ [botMessage], isLoading := false }

end ChatRouter

/-! ## Theorems -/


/-- Looking up a key just assigned yields the assigned value. -/
theorem lookup_setField_self (l : List (String × Js)) (k : String) (v : Js) :
    lookupField (setField l k v) k = some v := by
  induction l with
  | nil => simp [setField, lookupField]
  | cons kv rest ih =>
      obtain ⟨k', v'⟩ := kv
      by_cases h : k' = k
      · simp [setField, h, lookupField]
      · simp [setField, h, lookupField, ih]

/-- Assigning one key leaves every other key's binding unchanged. -/
theorem lookup_setField_other (l : List (String × Js)) (k k2 : String) (v : Js)
    (h : k2 ≠ k) : lookupField (setField l k v) k2 = lookupField l k2 := by
  induction l with
  | nil => simp [setField, lookupField, Ne.symm h]
  | cons kv rest ih =>
      obtain ⟨k', v'⟩ := kv
      by_cases hk : k' = k
      · subst hk
        simp [setField, lookupField, Ne.symm h]
      · simp [setField, hk, lookupField, ih]

/-- Re-assigning the value a key already has is the identity. -/
theorem setField_lookup_id (l : List (String × Js)) (k : String) (v : Js)
    (h : lookupField l k = some v) : setField l k v = l := by
  induction l with
  | nil => simp [lookupField] at h
  | cons kv rest ih =>
      obtain ⟨k', v'⟩ := kv
      by_cases hk : k' = k
      · subst hk
        simp [lookupField] at h
        simp [setField, h]
      · simp [lookupField, hk] at h
        simp [setField, hk, ih h]

/-- A fold of assignments touching only other keys preserves a lookup. -/
theorem lookup_setFields_not_mem (kvs : List (String × Js)) :
    ∀ (base : List (String × Js)) (k : String),
      (∀ kv ∈ kvs, kv.1 ≠ k) →
      lookupField (setFields base kvs) k = lookupField base k := by
  induction kvs with
  | nil => intro base k _; rfl
  | cons kv rest ih =>
      intro base k h
      have hkv : kv.1 ≠ k := h kv (by simp)
      have hrest : ∀ kv' ∈ rest, kv'.1 ≠ k := fun kv' hm => h kv' (by simp [hm])
      calc lookupField (setFields base (kv :: rest)) k
          = lookupField (setFields (setField base kv.1 kv.2) rest) k := rfl
        _ = lookupField (setField base kv.1 kv.2) k := ih _ k hrest
        _ = lookupField base k := lookup_setField_other _ _ _ _ (fun e => hkv e.symm)

/-- After a fold of assignments with pairwise distinct keys, each assigned
key holds its assigned value. -/
theorem lookup_setFields_mem (kvs : List (String × Js)) :
    ∀ (base : List (String × Js)) (k : String) (v : Js),
      (kvs.map Prod.fst).Nodup → (k, v) ∈ kvs →
      lookupField (setFields base kvs) k = some v := by
  induction kvs with
  | nil => intro base k v _ hm; cases hm
  | cons kv rest ih =>
      intro base k v hnd hm
      simp only [List.map_cons, List.nodup_cons] at hnd
      rcases List.mem_cons.mp hm with heq | hmem
      · subst heq
        have hrest : ∀ kv' ∈ rest, kv'.1 ≠ k := by
          intro kv' hk' e
          have hmm : kv'.1 ∈ rest.map Prod.fst := List.mem_map_of_mem Prod.fst hk'
          exact hnd.1 (e ▸ hmm)
        calc lookupField (setFields base ((k, v) :: rest)) k
            = lookupField (setFields (setField base k v) rest) k := rfl
          _ = lookupField (setField base k v) k := lookup_setFields_not_mem _ _ _ hrest
          _ = some v := lookup_setField_self _ _ _
      · exact ih _ k v hnd.2 hmem

/-- Re-assigning values every key already has is the identity. -/
theorem setFields_id (kvs : List (String × Js)) :
    ∀ base : List (String × Js),
      (∀ kv ∈ kvs, lookupField base kv.1 = some kv.2) →
      setFields base kvs = base := by
  induction kvs with
  | nil => intro base _; rfl
  | cons kv rest ih =>
      intro base h
      have h1 : setField base kv.1 kv.2 = base :=
        setField_lookup_id _ _ _ (h kv (by simp))
      calc setFields base (kv :: rest)
          = setFields (setField base kv.1 kv.2) rest := rfl
        _ = setFields base rest := by rw [h1]
        _ = base := ih base (fun kv' hm => h kv' (by simp [hm]))

/-- A truthy value short-circuits `||`. -/
theorem jsOr_of_truthy (a b : Js) (h : truthy a = true) : jsOr a b = a := by
  simp [jsOr, h]

/-- The value `a || b` is truthy whenever the default `b` is. -/
theorem truthy_jsOr (a b : Js) (h : truthy b = true) : truthy (jsOr a b) = true := by
  by_cases ha : truthy a <;> simp [jsOr, ha, h]

/-- Idempotence of `ensureArray`. -/
theorem ensureArray_idem (x : Js) : ensureArray (ensureArray x) = ensureArray x := by
  cases x <;> rfl

/-- Property access on a truthy receiver never throws and yields `jsGet`. -/
theorem getProp_of_truthy (x : Js) (k : String) (h : truthy x = true) :
    getProp x k = some (jsGet x k) := by
  cases x <;> simp_all [truthy, getProp, jsGet]

/-- On a truthy input the sanitizer's only effectful steps are the
study-note map and the review normalisation; everything else is the
deterministic field assembly. -/
theorem sanitizeData_truthy (x : Js) (hx : truthy x = true) :
    sanitizeData x =
      Option.bind ((match ensureArray (jsGet x "studyNotes") with
                    | .arr xs => xs
                    | _ => ([] : List Js)).mapM sanitizeStudyNote) (fun sn2 =>
        Option.bind (sanitizeReview (jsGet x "reviewDetails")) (fun rd2 =>
          some (Js.obj (setFields (spreadFields x) (sanitizedFields x sn2 rd2))))) := by
  simp only [sanitizedFields]
  rw [sanitizeData, if_pos hx]
  simp only [getProp_of_truthy _ _ hx, Option.bind_eq_bind, Option.some_bind]

/-- A sanitized study-note section is a fixed point of the section
sanitizer. -/
theorem sanitizeStudyNote_idem (s e : Js) (h : sanitizeStudyNote s = some e) :
    sanitizeStudyNote e = some e := by
  cases hp : getProp s "points" with
  | none =>
      rw [sanitizeStudyNote, hp] at h
      cases h
  | some p =>
      rw [sanitizeStudyNote, hp] at h
      simp only [Option.bind_eq_bind, Option.some_bind, Option.some.injEq] at h
      subst h
      rw [sanitizeStudyNote]
      have h1 : getProp (Js.obj (setField (spreadFields s) "points" (ensureArray p)))
          "points" = some (ensureArray p) := by
        simp [getProp, lookup_setField_self]
      rw [h1]
      simp only [Option.bind_eq_bind, Option.some_bind, Option.some.injEq, Js.obj.injEq]
      rw [spreadFields, ensureArray_idem]
      exact setField_lookup_id _ _ _ (lookup_setField_self (spreadFields s) "points"
        (ensureArray p))

/-- A sanitized review value is a fixed point of the review sanitizer. -/
theorem sanitizeReview_idem (rd r : Js) (h : sanitizeReview rd = some r) :
    sanitizeReview r = some r := by
  by_cases ht : truthy rd
  · rw [sanitizeReview, if_pos ht] at h
    simp only [getProp_of_truthy _ _ ht, Option.bind_eq_bind, Option.some_bind,
      Option.some.injEq] at h
    subst h
    rw [sanitizeReview, if_pos (by rfl)]
    have hitem : truthy (jsOr (jsGet rd "item") (Js.str "Unknown")) = true :=
      truthy_jsOr _ _ (by decide)
    have hverdict : truthy (jsOr (jsGet rd "verdict") (Js.str "No verdict.")) = true :=
      truthy_jsOr _ _ (by decide)
    simp only [getProp, lookupField, Option.getD_some, Option.bind_eq_bind,
      Option.some_bind, Option.some.injEq]
    simp [jsOr_of_truthy _ _ hitem, jsOr_of_truthy _ _ hverdict, ensureArray_idem]
  · rw [sanitizeReview, if_neg ht] at h
    cases h
    rfl

/-- A successful elementwise map over fixed-point-producing steps yields a
list of fixed points. -/
theorem mapM_option_idem (f : Js → Option Js)
    (hf : ∀ s e, f s = some e → f e = some e) :
    ∀ (xs ys : List Js), xs.mapM f = some ys → ys.mapM f = some ys := by
  intro xs
  induction xs with
  | nil =>
      intro ys h
      simp only [List.mapM_nil, Option.pure_def, Option.some.injEq] at h
      subst h
      rfl
  | cons x xs ih =>
      intro ys h
      rw [List.mapM_cons] at h
      cases hx : f x with
      | none => rw [hx] at h; cases h
      | some e =>
          rw [hx] at h
          cases hxs : xs.mapM f with
          | none => rw [hxs] at h; cases h
          | some es =>
              rw [hxs] at h
              simp only [Option.pure_def, Option.bind_eq_bind, Option.some_bind,
                Option.some.injEq] at h
              subst h
              rw [List.mapM_cons, hf x e hx, ih es hxs]
              rfl

/-- Reading a key off an object with a known binding. -/
theorem jsGet_obj_of_lookup (l : List (String × Js)) (k : String) (v : Js)
    (h : lookupField l k = some v) : jsGet (Js.obj l) k = v := by
  simp [jsGet, getProp, h]

/-- The assigned keys, in assignment order. -/
theorem sanitizedFields_keys (x : Js) (sn2 : List Js) (rd2 : Js) :
    (sanitizedFields x sn2 rd2).map Prod.fst =
      ["videoType", "timestamps", "themes", "studyNotes", "quotes", "speakers",
       "subTopics", "reviewDetails"] := rfl

/-- Claim C7 (amended): for every truthy input `x` — in particular every
object — `sanitizeData` is idempotent: when `sanitizeData x` yields `y`,
re-sanitizing `y` yields `y` again.  (The falsy early-return `\x7b\x7d` is
the sole exception, witnessed by the counterexample.) -/
theorem claim_C7_amended (x y : Js) (hx : truthy x = true)
    (h : sanitizeData x = some y) : sanitizeData y = some y := by
  rw [sanitizeData_truthy x hx] at h
  cases hsn : (match ensureArray (jsGet x "studyNotes") with
               | .arr xs => xs | _ => ([] : List Js)).mapM sanitizeStudyNote with
  | none => rw [hsn] at h; cases h
  | some sn2 =>
      rw [hsn] at h
      cases hrd : sanitizeReview (jsGet x "reviewDetails") with
      | none => rw [hrd] at h; cases h
      | some rd2 =>
          rw [hrd] at h
          simp only [Option.some_bind, Option.some.injEq] at h
          subst h
          have hnd : ((sanitizedFields x sn2 rd2).map Prod.fst).Nodup := by
            rw [sanitizedFields_keys]; decide
          have hvt : truthy (jsOr (jsGet x "videoType") (Js.str "General")) = true :=
            truthy_jsOr _ _ (by decide)
          set L := setFields (spreadFields x) (sanitizedFields x sn2 rd2) with hL
          have hlk : ∀ k v, (k, v) ∈ sanitizedFields x sn2 rd2 →
              lookupField L k = some v := by
            intro k v hm
            rw [hL]
            exact lookup_setFields_mem _ _ _ _ hnd hm
          have g1 : jsGet (Js.obj L) "videoType"
              = jsOr (jsGet x "videoType") (Js.str "General") :=
            jsGet_obj_of_lookup _ _ _ (hlk _ _ (by simp [sanitizedFields]))
          have g2 : jsGet (Js.obj L) "timestamps" = ensureArray (jsGet x "timestamps") :=
            jsGet_obj_of_lookup _ _ _ (hlk _ _ (by simp [sanitizedFields]))
          have g3 : jsGet (Js.obj L) "themes" = ensureArray (jsGet x "themes") :=
            jsGet_obj_of_lookup _ _ _ (hlk _ _ (by simp [sanitizedFields]))
          have g4 : jsGet (Js.obj L) "studyNotes" = Js.arr sn2 :=
            jsGet_obj_of_lookup _ _ _ (hlk _ _ (by simp [sanitizedFields]))
          have g5 : jsGet (Js.obj L) "quotes" = ensureArray (jsGet x "quotes") :=
            jsGet_obj_of_lookup _ _ _ (hlk _ _ (by simp [sanitizedFields]))
          have g6 : jsGet (Js.obj L) "speakers" = ensureArray (jsGet x "speakers") :=
            jsGet_obj_of_lookup _ _ _ (hlk _ _ (by simp [sanitizedFields]))
          have g7 : jsGet (Js.obj L) "subTopics" = ensureArray (jsGet x "subTopics") :=
            jsGet_obj_of_lookup _ _ _ (hlk _ _ (by simp [sanitizedFields]))
          have g8 : jsGet (Js.obj L) "reviewDetails" = rd2 :=
            jsGet_obj_of_lookup _ _ _ (hlk _ _ (by simp [sanitizedFields]))
          rw [sanitizeData_truthy (Js.obj L) (by rfl), g4]
          rw [show (match ensureArray (Js.arr sn2) with
                    | Js.arr xs => xs | _ => ([] : List Js)) = sn2 from rfl]
          rw [mapM_option_idem sanitizeStudyNote sanitizeStudyNote_idem _ sn2 hsn]
          rw [g8, sanitizeReview_idem _ _ hrd]
          simp only [Option.some_bind, Option.some.injEq, Js.obj.injEq]
          have hfields : sanitizedFields (Js.obj L) sn2 rd2 = sanitizedFields x sn2 rd2 := by
            simp only [sanitizedFields]
            rw [g1, g2, g3, g5, g6, g7, jsOr_of_truthy _ _ hvt,
              ensureArray_idem, ensureArray_idem, ensureArray_idem,
              ensureArray_idem, ensureArray_idem]
          rw [show spreadFields (Js.obj L) = L from rfl, hfields]
          exact setFields_id _ _ (fun kv hm => hlk kv.1 kv.2 hm)

/-- Claim C7 (counterexample): the claim quantifies over every input, but
at `null` the sanitizer returns the bare empty object, and re-sanitizing
that empty object fills in the eight default fields, so
`sanitizeData (sanitizeData null) ≠ sanitizeData null`. -/
theorem claim_C7_counterexample :
    sanitizeData Js.null = some (Js.obj []) ∧
    sanitizeData (Js.obj []) ≠ some (Js.obj []) := by
  constructor
  · rfl
  · intro h
    have hc : sanitizeData (Js.obj []) = some (Js.obj
        [("videoType", Js.str "General"), ("timestamps", Js.arr []),
         ("themes", Js.arr []), ("studyNotes", Js.arr []),
         ("quotes", Js.arr []), ("speakers", Js.arr []),
         ("subTopics", Js.arr []), ("reviewDetails", Js.undef)]) := rfl
    rw [hc] at h
    simp at h

/-- Claim C7 (witness): the amended idempotence applied to a concrete
object input. -/
theorem claim_C7_witness :
    truthy (Js.obj [("title", Js.str "T")]) = true ∧
    sanitizeData (Js.obj [("title", Js.str "T")]) = some (Js.obj
      [("title", Js.str "T"), ("videoType", Js.str "General"),
       ("timestamps", Js.arr []), ("themes", Js.arr []),
       ("studyNotes", Js.arr []), ("quotes", Js.arr []),
       ("speakers", Js.arr []), ("subTopics", Js.arr []),
       ("reviewDetails", Js.undef)]) ∧
    sanitizeData (Js.obj
      [("title", Js.str "T"), ("videoType", Js.str "General"),
       ("timestamps", Js.arr []), ("themes", Js.arr []),
       ("studyNotes", Js.arr []), ("quotes", Js.arr []),
       ("speakers", Js.arr []), ("subTopics", Js.arr []),
       ("reviewDetails", Js.undef)]) = some (Js.obj
      [("title", Js.str "T"), ("videoType", Js.str "General"),
       ("timestamps", Js.arr []), ("themes", Js.arr []),
       ("studyNotes", Js.arr []), ("quotes", Js.arr []),
       ("speakers", Js.arr []), ("subTopics", Js.arr []),
       ("reviewDetails", Js.undef)]) :=
  ⟨rfl, rfl, claim_C7_amended (Js.obj [("title", Js.str "T")]) _ rfl rfl⟩

/-- Claim C2 (code bug): `sanitizeData` is not the total
always-arrays function the claim describes — at input `null` it returns
the bare empty object whose `timestamps` (like every other sequence
field) is `undefined` rather than an array, and at an input whose
`studyNotes` array contains `null` it throws a `TypeError` while reading
`points`. -/
theorem claim_C2_code_bug :
    sanitizeData Js.null = some (Js.obj []) ∧
    jsGet (Js.obj []) "timestamps" = Js.undef ∧
    sanitizeData (Js.obj [("studyNotes", Js.arr [Js.null])]) = none :=
  ⟨rfl, rfl, rfl⟩

/-- Claim C10: on any object input the sanitizer preserves, unchanged,
every key it does not explicitly assign (`title`, `summary`,
`transcript`, `videoId`, `sentiment`, and any other key): those bindings
are carried through the spread untouched. -/
theorem claim_C10 (f : List (String × Js)) (y : Js) (k : String)
    (h : sanitizeData (Js.obj f) = some y)
    (hk : k ∉ (["videoType", "timestamps", "themes", "studyNotes", "quotes",
                "speakers", "subTopics", "reviewDetails"] : List String)) :
    jsGet y k = jsGet (Js.obj f) k := by
  rw [sanitizeData_truthy _ (by rfl)] at h
  cases hsn : (match ensureArray (jsGet (Js.obj f) "studyNotes") with
               | .arr xs => xs | _ => ([] : List Js)).mapM sanitizeStudyNote with
  | none => rw [hsn] at h; cases h
  | some sn2 =>
      rw [hsn] at h
      cases hrd : sanitizeReview (jsGet (Js.obj f) "reviewDetails") with
      | none => rw [hrd] at h; cases h
      | some rd2 =>
          rw [hrd] at h
          simp only [Option.some_bind, Option.some.injEq] at h
          subst h
          have hother : ∀ kv ∈ sanitizedFields (Js.obj f) sn2 rd2, kv.1 ≠ k := by
            intro kv hm e
            have hmm : kv.1 ∈ (sanitizedFields (Js.obj f) sn2 rd2).map Prod.fst :=
              List.mem_map_of_mem Prod.fst hm
            rw [sanitizedFields_keys] at hmm
            exact hk (e ▸ hmm)
          have hl : lookupField (setFields (spreadFields (Js.obj f))
              (sanitizedFields (Js.obj f) sn2 rd2)) k = lookupField f k :=
            lookup_setFields_not_mem _ _ _ hother
          simp [jsGet, getProp, hl]

/-- Claim C9: when the input's `reviewDetails` is truthy the output's
`reviewDetails` is the freshly built record with every sub-field
defaulted independently (placeholder `item`/`verdict`, `ensureArray`ed
`pros`/`cons`, pass-through `rating`); when it is falsy (absent, null,
missing) the output's `reviewDetails` is `undefined`, not an empty
object. -/
theorem claim_C9 (x y : Js) (h : sanitizeData x = some y) :
    (truthy x = true → truthy (jsGet x "reviewDetails") = true →
      jsGet y "reviewDetails" = Js.obj
        [("item", jsOr (jsGet (jsGet x "reviewDetails") "item") (Js.str "Unknown")),
         ("rating", jsGet (jsGet x "reviewDetails") "rating"),
         ("pros", ensureArray (jsGet (jsGet x "reviewDetails") "pros")),
         ("cons", ensureArray (jsGet (jsGet x "reviewDetails") "cons")),
         ("verdict", jsOr (jsGet (jsGet x "reviewDetails") "verdict")
            (Js.str "No verdict."))]) ∧
    (truthy (jsGet x "reviewDetails") = false →
      jsGet y "reviewDetails" = Js.undef) := by
  by_cases hx : truthy x = true
  · rw [sanitizeData_truthy x hx] at h
    cases hsn : (match ensureArray (jsGet x "studyNotes") with
                 | .arr xs => xs | _ => ([] : List Js)).mapM sanitizeStudyNote with
    | none => rw [hsn] at h; cases h
    | some sn2 =>
        rw [hsn] at h
        cases hrd : sanitizeReview (jsGet x "reviewDetails") with
        | none => rw [hrd] at h; cases h
        | some rd2 =>
            rw [hrd] at h
            simp only [Option.some_bind, Option.some.injEq] at h
            subst h
            have hnd : ((sanitizedFields x sn2 rd2).map Prod.fst).Nodup := by
              rw [sanitizedFields_keys]; decide
            have hy : jsGet (Js.obj (setFields (spreadFields x)
                (sanitizedFields x sn2 rd2))) "reviewDetails" = rd2 :=
              jsGet_obj_of_lookup _ _ _
                (lookup_setFields_mem _ _ _ _ hnd (by simp [sanitizedFields]))
            constructor
            · intro _ hrdt
              rw [sanitizeReview, if_pos hrdt] at hrd
              simp only [getProp_of_truthy _ _ hrdt, Option.bind_eq_bind,
                Option.some_bind, Option.some.injEq] at hrd
              rw [hy, ← hrd]
            · intro hrdf
              rw [sanitizeReview, if_neg (by simp [hrdf])] at hrd
              cases hrd
              rw [hy]
  · rw [sanitizeData, if_neg hx] at h
    cases h
    simp only [Bool.not_eq_true] at hx
    have hrdf : jsGet Js.undef "reviewDetails" = Js.undef := rfl
    constructor
    · intro hxt; rw [hxt] at hx; cases hx
    · intro _
      rfl

/-- Claim C10 (witness): the frame condition applied to a concrete record
carrying `title` and `videoId`. -/
theorem claim_C10_witness :
    jsGet (Js.obj
      [("title", Js.str "T"), ("videoId", Js.str "abc"),
       ("videoType", Js.str "General"), ("timestamps", Js.arr []),
       ("themes", Js.arr []), ("studyNotes", Js.arr []), ("quotes", Js.arr []),
       ("speakers", Js.arr []), ("subTopics", Js.arr []),
       ("reviewDetails", Js.undef)]) "title"
      = jsGet (Js.obj [("title", Js.str "T"), ("videoId", Js.str "abc")]) "title" :=
  claim_C10 [("title", Js.str "T"), ("videoId", Js.str "abc")] _ "title" rfl (by decide)

/-- Claim C9 (witness): the truthy-review branch applied to a concrete
input providing only `pros`. -/
theorem claim_C9_witness :
    jsGet (Js.obj
      [("reviewDetails", Js.obj
         [("item", Js.str "Unknown"), ("rating", Js.undef),
          ("pros", Js.arr [Js.str "p"]), ("cons", Js.arr []),
          ("verdict", Js.str "No verdict.")]),
       ("videoType", Js.str "General"), ("timestamps", Js.arr []),
       ("themes", Js.arr []), ("studyNotes", Js.arr []), ("quotes", Js.arr []),
       ("speakers", Js.arr []), ("subTopics", Js.arr [])]) "reviewDetails"
      = Js.obj
         [("item", Js.str "Unknown"), ("rating", Js.undef),
          ("pros", Js.arr [Js.str "p"]), ("cons", Js.arr []),
          ("verdict", Js.str "No verdict.")] :=
  (claim_C9 (Js.obj [("reviewDetails", Js.obj [("pros", Js.arr [Js.str "p"])])])
    _ rfl).1 rfl rfl

/-- Claim C4: saving keys the item by the record's external identifier
when truthy (else the timestamp string), removes any existing entry with
the same key, prepends the new item and truncates to 10; consequently the
head is always the newest item, the saved key occurs exactly once,
key-uniqueness is preserved, the length never exceeds 10, and saving a
sequence of records with pairwise distinct keys retains exactly the 10
most recent, newest first. -/
theorem claim_C4 :
    (∀ (nd : Js) (hist : List HistoryItem) (now : Nat) (sd : Js),
       sanitizeData nd = some sd →
       saveToHistory nd hist now = some (saveItem (mkHistoryItem sd now) hist) ∧
       (mkHistoryItem sd now).id = jsOr (jsGet sd "videoId") (Js.str (toString now))) ∧
    (∀ (it : HistoryItem) (hist : List HistoryItem),
       (saveItem it hist).head? = some it) ∧
    (∀ (it : HistoryItem) (hist : List HistoryItem),
       (saveItem it hist).countP (fun h2 => h2.id == it.id) = 1) ∧
    (∀ (it : HistoryItem) (hist : List HistoryItem),
       (hist.map HistoryItem.id).Nodup →
       ((saveItem it hist).map HistoryItem.id).Nodup) ∧
    (∀ (it : HistoryItem) (hist : List HistoryItem), (saveItem it hist).length ≤ 10) ∧
    (∀ its : List HistoryItem,
       (its.map HistoryItem.id).Nodup →
       its.foldl (fun h it => saveItem it h) [] = its.reverse.take 10) := by
  refine ⟨?_, ?_, ?_, ?_, ?_, ?_⟩
  · intro nd hist now sd h
    rw [saveToHistory, h]
    exact ⟨rfl, rfl⟩
  · intro it hist
    simp [saveItem, List.take_succ_cons]
  · intro it hist
    rw [saveItem, List.take_succ_cons, List.countP_cons]
    have h0 : (List.take 9 (hist.filter (fun h => !(h.id == it.id)))).countP
        (fun h2 => h2.id == it.id) = 0 := by
      rw [List.countP_eq_zero]
      intro a ha
      have ha2 : a ∈ hist.filter (fun h => !(h.id == it.id)) :=
        List.take_subset _ _ ha
      have := List.of_mem_filter ha2
      simpa using this
    simp [h0]
  · intro it hist hnd
    rw [saveItem, List.take_succ_cons, List.map_cons]
    rw [List.nodup_cons]
    constructor
    · intro hmem
      obtain ⟨a, ha, hae⟩ := List.mem_map.mp hmem
      have ha2 : a ∈ hist.filter (fun h => !(h.id == it.id)) :=
        List.take_subset _ _ ha
      have := List.of_mem_filter ha2
      rw [hae] at this
      simp at this
    · have hsub : List.Sublist ((List.take 9 (hist.filter
          (fun h => !(h.id == it.id)))).map HistoryItem.id)
          (hist.map HistoryItem.id) :=
        List.Sublist.map _ ((List.take_sublist _ _).trans (List.filter_sublist _))
      exact hnd.sublist hsub
  · intro it hist
    rw [saveItem]
    exact List.length_take_le _ _
  · intro its
    induction its using List.reverseRecOn with
    | nil => intro _; rfl
    | append_singleton ys y ih =>
        intro hnd
        rw [List.map_append, List.nodup_append] at hnd
        obtain ⟨hys, _, hdisj⟩ := hnd
        have hyid : ∀ a ∈ ys, ¬ a.id = y.id := by
          intro a ha e
          exact hdisj (List.mem_map_of_mem _ ha) (by simp [e])
        rw [List.foldl_append]
        simp only [List.foldl_cons, List.foldl_nil]
        rw [ih hys]
        rw [saveItem]
        have hfilter : (ys.reverse.take 10).filter (fun h => !(h.id == y.id))
            = ys.reverse.take 10 := by
          rw [List.filter_eq_self]
          intro a ha
          have ha2 : a ∈ ys := by
            have := List.take_subset _ _ ha
            exact List.mem_reverse.mp this
          simp [hyid a ha2]
        rw [hfilter, List.take_succ_cons.symm]
        rw [List.reverse_append]
        simp [List.take_take]

/-- Claim C4 (witness): saving 11 items with distinct keys into an empty
history retains exactly the 10 most recent, newest first. -/
theorem claim_C4_witness :
    (([{ id := Js.str "v0", title := Js.undef, date := 0, thumbnail := Js.undef, type := Js.undef, data := Js.undef },
       { id := Js.str "v1", title := Js.undef, date := 1, thumbnail := Js.undef, type := Js.undef, data := Js.undef },
       { id := Js.str "v2", title := Js.undef, date := 2, thumbnail := Js.undef, type := Js.undef, data := Js.undef },
       { id := Js.str "v3", title := Js.undef, date := 3, thumbnail := Js.undef, type := Js.undef, data := Js.undef },
       { id := Js.str "v4", title := Js.undef, date := 4, thumbnail := Js.undef, type := Js.undef, data := Js.undef },
       { id := Js.str "v5", title := Js.undef, date := 5, thumbnail := Js.undef, type := Js.undef, data := Js.undef },
       { id := Js.str "v6", title := Js.undef, date := 6, thumbnail := Js.undef, type := Js.undef, data := Js.undef },
       { id := Js.str "v7", title := Js.undef, date := 7, thumbnail := Js.undef, type := Js.undef, data := Js.undef },
       { id := Js.str "v8", title := Js.undef, date := 8, thumbnail := Js.undef, type := Js.undef, data := Js.undef },
       { id := Js.str "v9", title := Js.undef, date := 9, thumbnail := Js.undef, type := Js.undef, data := Js.undef },
       { id := Js.str "v10", title := Js.undef, date := 10, thumbnail := Js.undef, type := Js.undef, data := Js.undef }] : List HistoryItem).map HistoryItem.id).Nodup ∧
    ([{ id := Js.str "v0", title := Js.undef, date := 0, thumbnail := Js.undef, type := Js.undef, data := Js.undef },
       { id := Js.str "v1", title := Js.undef, date := 1, thumbnail := Js.undef, type := Js.undef, data := Js.undef },
       { id := Js.str "v2", title := Js.undef, date := 2, thumbnail := Js.undef, type := Js.undef, data := Js.undef },
       { id := Js.str "v3", title := Js.undef, date := 3, thumbnail := Js.undef, type := Js.undef, data := Js.undef },
       { id := Js.str "v4", title := Js.undef, date := 4, thumbnail := Js.undef, type := Js.undef, data := Js.undef },
       { id := Js.str "v5", title := Js.undef, date := 5, thumbnail := Js.undef, type := Js.undef, data := Js.undef },
       { id := Js.str "v6", title := Js.undef, date := 6, thumbnail := Js.undef, type := Js.undef, data := Js.undef },
       { id := Js.str "v7", title := Js.undef, date := 7, thumbnail := Js.undef, type := Js.undef, data := Js.undef },
       { id := Js.str "v8", title := Js.undef, date := 8, thumbnail := Js.undef, type := Js.undef, data := Js.undef },
       { id := Js.str "v9", title := Js.undef, date := 9, thumbnail := Js.undef, type := Js.undef, data := Js.undef },
       { id := Js.str "v10", title := Js.undef, date := 10, thumbnail := Js.undef, type := Js.undef, data := Js.undef }] : List HistoryItem).foldl (fun h it => saveItem it h) [] =
      ([{ id := Js.str "v0", title := Js.undef, date := 0, thumbnail := Js.undef, type := Js.undef, data := Js.undef },
       { id := Js.str "v1", title := Js.undef, date := 1, thumbnail := Js.undef, type := Js.undef, data := Js.undef },
       { id := Js.str "v2", title := Js.undef, date := 2, thumbnail := Js.undef, type := Js.undef, data := Js.undef },
       { id := Js.str "v3", title := Js.undef, date := 3, thumbnail := Js.undef, type := Js.undef, data := Js.undef },
       { id := Js.str "v4", title := Js.undef, date := 4, thumbnail := Js.undef, type := Js.undef, data := Js.undef },
       { id := Js.str "v5", title := Js.undef, date := 5, thumbnail := Js.undef, type := Js.undef, data := Js.undef },
       { id := Js.str "v6", title := Js.undef, date := 6, thumbnail := Js.undef, type := Js.undef, data := Js.undef },
       { id := Js.str "v7", title := Js.undef, date := 7, thumbnail := Js.undef, type := Js.undef, data := Js.undef },
       { id := Js.str "v8", title := Js.undef, date := 8, thumbnail := Js.undef, type := Js.undef, data := Js.undef },
       { id := Js.str "v9", title := Js.undef, date := 9, thumbnail := Js.undef, type := Js.undef, data := Js.undef },
       { id := Js.str "v10", title := Js.undef, date := 10, thumbnail := Js.undef, type := Js.undef, data := Js.undef }] : List HistoryItem).reverse.take 10 :=
  ⟨by decide, claim_C4.2.2.2.2.2 _ (by decide)⟩

/-- Every element of a successful elementwise map is the image of some
input element. -/
theorem mapM_option_mem (f : Js → Option Js) :
    ∀ (xs ys : List Js), xs.mapM f = some ys →
      ∀ out ∈ ys, ∃ x ∈ xs, f x = some out := by
  intro xs
  induction xs with
  | nil =>
      intro ys h out hm
      simp only [List.mapM_nil, Option.pure_def, Option.some.injEq] at h
      subst h
      cases hm
  | cons x xs ih =>
      intro ys h out hm
      rw [List.mapM_cons] at h
      cases hx : f x with
      | none => rw [hx] at h; cases h
      | some e =>
          rw [hx] at h
          cases hxs : xs.mapM f with
          | none => rw [hxs] at h; cases h
          | some es =>
              rw [hxs] at h
              simp only [Option.pure_def, Option.bind_eq_bind, Option.some_bind,
                Option.some.injEq] at h
              subst h
              rcases List.mem_cons.mp hm with he | hes
              · exact ⟨x, by simp, he ▸ hx⟩
              · obtain ⟨x2, hx2, hfx2⟩ := ih es hxs out hes
                exact ⟨x2, by simp [hx2], hfx2⟩

/-- Claim C5: the startup load is total — absent storage, content that
fails to parse, or content parsing to a non-array all yield the empty
history with no error — and when the content is a valid array every
loaded entry's embedded record is the output of the Domain Sanitizer run
on the stored record. -/
theorem claim_C5 :
    loadHistory none = [] ∧
    (∀ s : String, jsonParse s.toList = none → loadHistory (some s) = []) ∧
    (∀ (s : String) (v : Js), jsonParse s.toList = some v →
       (∀ xs, v ≠ Js.arr xs) → loadHistory (some s) = []) ∧
    (∀ (s : String) (items safe : List Js),
       jsonParse s.toList = some (Js.arr items) →
       items.mapM sanitizeHistoryEntry = some safe →
       loadHistory (some s) = safe) ∧
    (∀ (s : String) (items : List Js), jsonParse s.toList = some (Js.arr items) →
       ∀ out ∈ loadHistory (some s), ∃ item ∈ items, ∃ d sd,
         getProp item "data" = some d ∧ sanitizeData d = some sd ∧
         jsGet out "data" = sd) := by
  refine ⟨rfl, ?_, ?_, ?_, ?_⟩
  · intro s h
    show parseHistory (jsonParse s.toList) = []
    rw [h]
    rfl
  · intro s v h hne
    show parseHistory (jsonParse s.toList) = []
    rw [h]
    cases v with
    | arr xs => exact (hne _ rfl).elim
    | undef => rfl
    | null => rfl
    | bool b => rfl
    | num n => rfl
    | str t => rfl
    | obj fs => rfl
  · intro s items safe h hm
    show parseHistory (jsonParse s.toList) = safe
    rw [h, parseHistory, hm]
    rfl
  · intro s items h out hm
    rw [show loadHistory (some s) = parseHistory (jsonParse s.toList) from rfl,
      h, parseHistory] at hm
    cases hms : items.mapM sanitizeHistoryEntry with
    | none => rw [hms] at hm; cases hm
    | some safe =>
        rw [hms] at hm
        obtain ⟨item, hitem, hf⟩ := mapM_option_mem _ _ _ hms out hm
        cases hd : getProp item "data" with
        | none => rw [sanitizeHistoryEntry, hd] at hf; cases hf
        | some d =>
            rw [sanitizeHistoryEntry, hd] at hf
            simp only [Option.bind_eq_bind, Option.some_bind] at hf
            cases hsd : sanitizeData d with
            | none =>
                rw [hsd] at hf
                cases hf
            | some sd =>
                rw [hsd] at hf
                simp only [Option.bind_eq_bind, Option.some_bind,
                  Option.some.injEq] at hf
                refine ⟨item, hitem, d, sd, hd, hsd, ?_⟩
                rw [← hf]
                exact jsGet_obj_of_lookup _ _ _ (lookup_setField_self _ _ _)

/-- Claim C5 (witness): unparsable persisted content resets the store. -/
theorem claim_C5_witness :
    jsonParse ("not json" : String).toList = none ∧
    loadHistory (some "not json") = [] :=
  ⟨rfl, claim_C5.2.1 "not json" rfl⟩

/-- Claim C6: `getYouTubeId` resolves the 11-character identifier from
the known URL shapes — in particular `youtu.be/dQw4w9WgXcQ` — any
returned identifier has exactly 11 characters (so no match means `null`),
and for `https://example.com/video` URL-mode analysis fails validation
with the non-YouTube-host message before the analysis call is ever
consulted (the result is the same for every `analyze` thunk). -/
theorem claim_C6 :
    getYouTubeId "https://youtu.be/dQw4w9WgXcQ" = some "dQw4w9WgXcQ" ∧
    (∀ (url : String) (s : String), getYouTubeId url = some s → s.length = 11) ∧
    (∀ analyze : Unit → Except String Js,
       handleAnalyzeUrl "https://example.com/video" analyze =
         Except.error "Please provide a valid YouTube URL (youtube.com or youtu.be).") ∧
    getYouTubeId "https://example.com/video" = none := by
  refine ⟨rfl, ?_, fun _ => rfl, rfl⟩
  intro url s h
  rw [getYouTubeId] at h
  by_cases hu : url = ""
  · simp [hu] at h
  · rw [if_neg hu] at h
    cases hs : scanLast url.toList none with
    | none => rw [hs] at h; cases h
    | some rest =>
        rw [hs] at h
        dsimp only at h
        by_cases hl : (rest.takeWhile
            (fun c => !(c == '#' || c == '&' || c == '?'))).length = 11
        · rw [if_pos hl] at h
          injection h with h2
          rw [← h2]
          exact hl
        · rw [if_neg hl] at h
          cases h

/-- Claim C6 (witness): the length guarantee applied to the resolved
identifier of a concrete URL. -/
theorem claim_C6_witness :
    ("dQw4w9WgXcQ" : String).length = 11 :=
  claim_C6.2.1 "https://youtu.be/dQw4w9WgXcQ" "dQw4w9WgXcQ" rfl

/-- A pattern is found in any text that contains it contiguously. -/
theorem containsSub_middle (pat : List Char) :
    ∀ pre post : List Char, containsSub pat (pre ++ (pat ++ post)) = true := by
  intro pre
  induction pre with
  | nil =>
      intro post
      cases hp : pat with
      | nil =>
          cases post with
          | nil => rfl
          | cons c rest => simp [containsSub]
      | cons c rest =>
          have hpre : (c :: rest).isPrefixOf (c :: (rest ++ post)) = true := by
            rw [List.isPrefixOf_iff_prefix]
            simp
          simp [containsSub, hpre]
  | cons c pre ih =>
      intro post
      simp only [List.cons_append]
      rw [show containsSub pat (c :: (pre ++ (pat ++ post)))
          = (pat.isPrefixOf (c :: (pre ++ (pat ++ post))) ||
             containsSub pat (pre ++ (pat ++ post))) from rfl]
      rw [ih post]
      simp

/-- The mismatch remediation text starts with an `A`. -/
theorem mismatch_head (v : String) : (mismatchMsg v).data.head? = some 'A' := rfl

/-- The not-found remediation text starts with a `V`. -/
theorem notFound_head (title : String) :
    (notFoundMsg title).data.head? = some 'V' := rfl

/-- Claim C3 (counterexample): the claim says the Mismatch error carries
both identifiers, but the raised error message interpolates only the
resolved identifier — at requested id `AAAAAAAAAAA` and resolved id
`BBBBBBBBBBB` the message does not contain the requested identifier. -/
theorem claim_C3_counterexample :
    videoIdGuard (Js.str "AAAAAAAAAAA") "YouTube Video"
      (Js.obj [("videoId", Js.str "BBBBBBBBBBB")]) =
      Except.error (mismatchMsg "BBBBBBBBBBB") ∧
    containsSub ("AAAAAAAAAAA" : String).toList
      (mismatchMsg "BBBBBBBBBBB").toList = false :=
  ⟨rfl, rfl⟩

/-- Claim C3 (amended): with a truthy requested identifier and a truthy,
non-sentinel, differing resolved identifier the guard raises the Mismatch
error carrying the resolved identifier (only); a sentinel resolved
identifier raises the distinct NotFound error, whose remediation text
always differs from the mismatch text; and an absent resolved identifier,
or a falsy requested identifier with a non-sentinel record, passes the
record through unchecked. -/
theorem claim_C3_amended :
    (∀ (r : Js) (title : String) (data : Js) (v : String),
       jsGet data "videoId" = Js.str v → v ≠ "NOT_FOUND" → v ≠ "" →
       truthy r = true → Js.str v ≠ r →
       videoIdGuard r title data = Except.error (mismatchMsg v) ∧
       containsSub v.toList (mismatchMsg v).toList = true) ∧
    (∀ (r : Js) (title : String) (data : Js),
       jsGet data "videoId" = Js.str "NOT_FOUND" →
       videoIdGuard r title data = Except.error (notFoundMsg title)) ∧
    (∀ (title v : String), mismatchMsg v ≠ notFoundMsg title) ∧
    (∀ (r : Js) (title : String) (data : Js),
       jsGet data "videoId" = Js.undef →
       videoIdGuard r title data = Except.ok data) ∧
    (∀ (r : Js) (title : String) (data : Js),
       truthy r = false → jsGet data "videoId" ≠ Js.str "NOT_FOUND" →
       videoIdGuard r title data = Except.ok data) := by
  refine ⟨?_, ?_, ?_, ?_, ?_⟩
  · intro r title data v hv hnf hv0 hr hne
    rw [videoIdGuard, hv]
    have c1 : (Js.str v == Js.str "NOT_FOUND") = false := by
      rw [beq_eq_false_iff_ne]
      intro e
      injection e with e2
      exact hnf e2
    have c2 : (Js.str v == r) = false := beq_eq_false_iff_ne.mpr hne
    have c3 : truthy (Js.str v) = true := by simp [truthy, hv0]
    rw [if_neg (by simp [c1])]
    rw [if_pos (by simp [c1, c2, c3, hr])]
    constructor
    · rfl
    · have hdec : (mismatchMsg v).toList =
          ("Analysis Mismatch: The AI analyzed a different video (ID: "
            : String).toList ++ (v.toList ++ (")." : String).toList) := by
        rw [mismatchMsg]
        rfl
      rw [hdec]
      exact containsSub_middle _ _ _
  · intro r title data hv
    rw [videoIdGuard, hv]
    rw [if_pos (by simp)]
  · intro title v e
    have hA := mismatch_head v
    rw [e, notFound_head] at hA
    cases hA
  · intro r title data hv
    rw [videoIdGuard, hv]
    rw [if_neg (by simp), if_neg (by simp [truthy])]
  · intro r title data hr hnf
    rw [videoIdGuard]
    have c1 : (jsGet data "videoId" == Js.str "NOT_FOUND") = false :=
      beq_eq_false_iff_ne.mpr hnf
    rw [if_neg (by simp [c1]), if_neg (by simp [hr])]

/-- Claim C3 (witness): the amended guard behavior at concrete
identifiers. -/
theorem claim_C3_witness :
    videoIdGuard (Js.str "AAAAAAAAAAA") "YouTube Video"
      (Js.obj [("videoId", Js.str "BBBBBBBBBBB")]) =
      Except.error (mismatchMsg "BBBBBBBBBBB") ∧
    containsSub ("BBBBBBBBBBB" : String).toList
      (mismatchMsg "BBBBBBBBBBB").toList = true :=
  claim_C3_amended.1 (Js.str "AAAAAAAAAAA") "YouTube Video"
    (Js.obj [("videoId", Js.str "BBBBBBBBBBB")]) "BBBBBBBBBBB"
    rfl (by decide) (by decide) rfl (by decide)

/-- Claim C8 (counterexample): the in-flight lock is one shared flag, so
the two contexts are not independent — submitting a research question
while a video question is awaiting its response leaves the state
unchanged (the research submission is rejected), instead of both being
in flight simultaneously. -/
theorem claim_C8_counterexample :
    handleSendStart (some "Tell me about Y") ChatContext.research 101
        (handleSendStart (some "What is X?") ChatContext.video 100
          { videoMessages := [], researchMessages := [], input := "",
            isLoading := false })
      = handleSendStart (some "What is X?") ChatContext.video 100
          { videoMessages := [], researchMessages := [], input := "",
            isLoading := false } ∧
    (handleSendStart (some "What is X?") ChatContext.video 100
      { videoMessages := [], researchMessages := [], input := "",
        isLoading := false }).isLoading = true ∧
    (handleSendStart (some "What is X?") ChatContext.video 100
      { videoMessages := [], researchMessages := [], input := "",
        isLoading := false }).researchMessages = [] :=
  ⟨rfl, rfl, rfl⟩

/-- Claim C8 (amended): within one context messages are appended
strictly in submission order (user messages at the end of the submitting
context's sequence, responses at the end on completion, the other
context untouched), and a second submission is rejected while ANY
question — in either context — is awaiting its response: the loading
flag is global, so cross-context questions cannot be in flight
simultaneously. -/
theorem claim_C8_amended :
    (∀ (ti : Option String) (ctx : ChatContext) (now : Nat) (st : ChatState),
       st.isLoading = true → handleSendStart ti ctx now st = st) ∧
    (∀ (c : String) (now : Nat) (st : ChatState),
       st.isLoading = false → (jsTrim c.toList).isEmpty = false → c ≠ "" →
       (handleSendStart (some c) ChatContext.video now st).videoMessages
          = st.videoMessages ++ [{ role := "user", content := c, timestamp := now }] ∧
       (handleSendStart (some c) ChatContext.video now st).researchMessages
          = st.researchMessages ∧
       (handleSendStart (some c) ChatContext.video now st).isLoading = true) ∧
    (∀ (c : String) (now : Nat) (st : ChatState),
       st.isLoading = false → (jsTrim c.toList).isEmpty = false → c ≠ "" →
       (handleSendStart (some c) ChatContext.research now st).researchMessages
          = st.researchMessages ++ [{ role := "user", content := c, timestamp := now }] ∧
       (handleSendStart (some c) ChatContext.research now st).videoMessages
          = st.videoMessages ∧
       (handleSendStart (some c) ChatContext.research now st).isLoading = true) ∧
    (∀ (resp : String) (now : Nat) (st : ChatState),
       (handleSendFinish ChatContext.video resp now st).videoMessages
          = st.videoMessages ++ [{ role := "model", content := resp, timestamp := now }] ∧
       (handleSendFinish ChatContext.video resp now st).researchMessages
          = st.researchMessages ∧
       (handleSendFinish ChatContext.video resp now st).isLoading = false) ∧
    (∀ (resp : String) (now : Nat) (st : ChatState),
       (handleSendFinish ChatContext.research resp now st).researchMessages
          = st.researchMessages ++ [{ role := "model", content := resp, timestamp := now }] ∧
       (handleSendFinish ChatContext.research resp now st).videoMessages
          = st.videoMessages ∧
       (handleSendFinish ChatContext.research resp now st).isLoading = false) := by
  refine ⟨?_, ?_, ?_, ?_, ?_⟩
  · intro ti ctx now st h
    cases ti <;> simp [handleSendStart, h]
  · intro c now st hl ht hc
    have ht2 : ¬ jsTrim c.data = [] := by
      intro he
      have he2 : jsTrim c.toList = [] := he
      rw [he2] at ht
      simp at ht
    rw [handleSendStart]
    simp only [hc, if_neg hc]
    rw [if_neg (by simp [ht2, hl])]
    exact ⟨rfl, rfl, rfl⟩
  · intro c now st hl ht hc
    have ht2 : ¬ jsTrim c.data = [] := by
      intro he
      have he2 : jsTrim c.toList = [] := he
      rw [he2] at ht
      simp at ht
    rw [handleSendStart]
    simp only [hc, if_neg hc]
    rw [if_neg (by simp [ht2, hl])]
    exact ⟨rfl, rfl, rfl⟩
  · intro resp now st
    exact ⟨rfl, rfl, rfl⟩
  · intro resp now st
    exact ⟨rfl, rfl, rfl⟩

/-- Claim C8 (witness): a concrete submission while idle appends the user
message to the video context and sets the shared lock. -/
theorem claim_C8_witness :
    (handleSendStart (some "What is X?") ChatContext.video 100
      { videoMessages := [{ role := "model", content := "Hi!", timestamp := 1 }],
        researchMessages := [], input := "", isLoading := false }).videoMessages
      = [{ role := "model", content := "Hi!", timestamp := 1 },
         { role := "user", content := "What is X?", timestamp := 100 }] ∧
    (handleSendStart (some "What is X?") ChatContext.video 100
      { videoMessages := [{ role := "model", content := "Hi!", timestamp := 1 }],
        researchMessages := [], input := "", isLoading := false }).isLoading = true :=
  ⟨(claim_C8_amended.2.1 "What is X?" 100
      { videoMessages := [{ role := "model", content := "Hi!", timestamp := 1 }],
        researchMessages := [], input := "", isLoading := false }
      rfl rfl (by decide)).1,
   (claim_C8_amended.2.1 "What is X?" 100
      { videoMessages := [{ role := "model", content := "Hi!", timestamp := 1 }],
        researchMessages := [], input := "", isLoading := false }
      rfl rfl (by decide)).2.2⟩

/-- A global replacement is the identity when the pattern never occurs. -/
theorem removeAllFuel_id (pat : List Char) :
    ∀ (cs : List Char) (fuel : Nat), containsSub pat cs = false →
      removeAllFuel pat fuel cs = cs := by
  intro cs
  induction cs with
  | nil => intro fuel _; cases fuel <;> rfl
  | cons c rest ih =>
      intro fuel h
      rw [show containsSub pat (c :: rest)
          = (pat.isPrefixOf (c :: rest) || containsSub pat rest) from rfl] at h
      rw [Bool.or_eq_false_iff] at h
      cases fuel with
      | zero => rfl
      | succ fuel =>
          rw [removeAllFuel, if_neg (by simp [h.1])]
          rw [ih fuel h.2]

/-- Lemma: `removeAll` is the identity when the pattern never occurs. -/
theorem removeAll_id (pat cs : List Char) (h : containsSub pat cs = false) :
    removeAll pat cs = cs :=
  removeAllFuel_id pat cs (cs.length + 1) h

/-- A text whose first character is not a backtick does not start a fence. -/
theorem isTicks3_false (c : Char) (x : List Char) (hc : c ≠ tickChar) :
    isTicks3 (c :: x) = false := by
  cases x with
  | nil => rfl
  | cons c2 x2 =>
      cases x2 with
      | nil => rfl
      | cons c3 x3 => simp [isTicks3, hc]

/-- A text starting with the fence pattern starts a fence. -/
theorem isTicks3_fence (x : List Char) : isTicks3 (fencePat ++ x) = true := by
  simp [isTicks3, fencePat]

/-- The lazy body stops exactly at the closing fence when the body itself
is backtick-free. -/
theorem splitAtFence_exact (post : List Char) :
    ∀ j : List Char, (∀ c ∈ j, c ≠ tickChar) →
      splitAtFence (j ++ (fencePat ++ post)) = some j := by
  intro j
  induction j with
  | nil =>
      intro _
      rw [List.nil_append]
      rw [show splitAtFence (fencePat ++ post)
          = (if isTicks3 (fencePat ++ post) then some []
             else (splitAtFence (tickChar :: tickChar :: post)).map
               (fun g => tickChar :: g)) from rfl]
      rw [isTicks3_fence]
      rfl
  | cons c j ih =>
      intro h
      rw [List.cons_append, splitAtFence]
      rw [isTicks3_false c _ (h c (by simp))]
      rw [ih (fun c2 h2 => h c2 (by simp [h2]))]
      rfl

/-- The fence search skips over backtick-free text. -/
theorem fenceGroup_skip (x : List Char) :
    ∀ a : List Char, (∀ c ∈ a, c ≠ tickChar) →
      fenceGroup (a ++ x) = fenceGroup x := by
  intro a
  induction a with
  | nil => intro _; rfl
  | cons c a ih =>
      intro h
      rw [List.cons_append, fenceGroup]
      rw [isTicks3_false c _ (h c (by simp))]
      exact ih (fun c2 h2 => h c2 (by simp [h2]))

/-- At a `json`-tagged fence with a backtick-free body, the capture group
is exactly the body. -/
theorem fenceGroup_fence (j post : List Char) (hj : ∀ c ∈ j, c ≠ tickChar) :
    fenceGroup (fencePat ++ ('j' :: 's' :: 'o' :: 'n' :: (j ++ (fencePat ++ post))))
      = some j := by
  rw [show fencePat ++ ('j' :: 's' :: 'o' :: 'n' :: (j ++ (fencePat ++ post)))
      = tickChar :: (tickChar :: tickChar ::
          ('j' :: 's' :: 'o' :: 'n' :: (j ++ (fencePat ++ post)))) from rfl]
  rw [fenceGroup]
  rw [show isTicks3 (tickChar :: (tickChar :: tickChar ::
      ('j' :: 's' :: 'o' :: 'n' :: (j ++ (fencePat ++ post))))) = true from by
    simp [isTicks3]]
  simp only [List.drop]
  rw [show (['j', 's', 'o', 'n'].isPrefixOf
      ('j' :: 's' :: 'o' :: 'n' :: (j ++ (fencePat ++ post)))) = true from by
    simp [List.isPrefixOf]]
  simp only [if_true]
  rw [splitAtFence_exact post j hj]

/-- Dropping a satisfied prefix twice is the same as dropping it once. -/
theorem dropWhile_dropWhile (p : Char → Bool) (l : List Char) :
    (l.dropWhile p).dropWhile p = l.dropWhile p := by
  induction l with
  | nil => rfl
  | cons c l ih =>
      by_cases h : p c
      · simp [List.dropWhile_cons, h, ih]
      · simp [List.dropWhile_cons, h]

/-- The head surviving a `dropWhile` fails the predicate. -/
theorem head_dropWhile_false (p : Char → Bool) :
    ∀ (l : List Char) (c : Char), (l.dropWhile p).head? = some c → p c = false := by
  intro l
  induction l with
  | nil => intro c h; cases h
  | cons a l ih =>
      intro c h
      by_cases hp : p a
      · rw [List.dropWhile_cons, if_pos hp] at h
        exact ih c h
      · rw [List.dropWhile_cons, if_neg hp] at h
        injection h with h2
        rw [← h2]
        simp [hp]

/-- Lemma: `dropWhile` keeps a list whose head fails the predicate. -/
theorem dropWhile_eq_self_of_head (p : Char → Bool) (l : List Char)
    (h : ∀ c, l.head? = some c → p c = false) : l.dropWhile p = l := by
  cases l with
  | nil => rfl
  | cons c l => simp [List.dropWhile_cons, h c rfl]

/-- Trimming is idempotent. -/
theorem jsTrim_idem (l : List Char) : jsTrim (jsTrim l) = jsTrim l := by
  rw [jsTrim, jsTrim]
  have hBrev : (((l.dropWhile jsWs).reverse.dropWhile jsWs).reverse).reverse
      = (l.dropWhile jsWs).reverse.dropWhile jsWs := List.reverse_reverse _
  have hstep1 : (((l.dropWhile jsWs).reverse.dropWhile jsWs).reverse).dropWhile jsWs
      = ((l.dropWhile jsWs).reverse.dropWhile jsWs).reverse := by
    apply dropWhile_eq_self_of_head
    intro c hc
    have hsuf : List.IsSuffix ((l.dropWhile jsWs).reverse.dropWhile jsWs)
        ((l.dropWhile jsWs).reverse) := List.dropWhile_suffix _
    obtain ⟨t, ht⟩ := hsuf
    have hA : ((l.dropWhile jsWs).reverse.dropWhile jsWs).reverse ++ t.reverse
        = l.dropWhile jsWs := by
      have h2 := congrArg List.reverse ht
      rw [List.reverse_append, List.reverse_reverse] at h2
      exact h2
    cases hB : ((l.dropWhile jsWs).reverse.dropWhile jsWs).reverse with
    | nil => rw [hB] at hc; cases hc
    | cons b bs =>
        rw [hB] at hc hA
        have hbc : b = c := by injection hc
        have hhead : (l.dropWhile jsWs).head? = some b := by
          rw [← hA]
          rfl
        rw [← hbc]
        exact head_dropWhile_false jsWs l b hhead
  rw [hstep1, hBrev, dropWhile_dropWhile]

/-- The brace span of a text that already starts with `\x7b` and ends
with `\x7d` is the whole text. -/
theorem braceSpan_of_braces (l : List Char) (h1 : l.head? = some '\x7b')
    (h2 : l.getLast? = some '\x7d') : braceSpan l = some l := by
  have hrevh : l.reverse.head? = some '\x7d' := by
    rw [List.head?_reverse]
    exact h2
  cases l with
  | nil => cases h1
  | cons c rest =>
      have hc : c = '\x7b' := by injection h1
      subst hc
      have ha : (('\x7b' :: rest).dropWhile (fun ch => ch != '\x7b'))
          = '\x7b' :: rest := by
        rw [List.dropWhile_cons]
        simp
      cases hrev : ('\x7b' :: rest).reverse with
      | nil => rw [hrev] at hrevh; cases hrevh
      | cons d ds =>
          have hd : d = '\x7d' := by
            rw [hrev] at hrevh
            injection hrevh
          subst hd
          have hb : (('\x7b' :: rest).reverse.dropWhile (fun ch => ch != '\x7d'))
              = ('\x7b' :: rest).reverse := by
            rw [hrev, List.dropWhile_cons]
            simp
          simp only [braceSpan, ha, hb, List.reverse_reverse]
          simp

/-- Fence stripping: on a fenced text with backtick-free prose before the
fence and a backtick-free body, with no noise-pattern occurrences and no
surrounding white space, `cleanJsonString` returns exactly the trimmed
fence body. -/
theorem cleanJsonString_fence (pre j post : List Char)
    (hpre : ∀ c ∈ pre, c ≠ tickChar) (hj : ∀ c ∈ j, c ≠ tickChar)
    (htrim : jsTrim (pre ++ (fencePat ++
        ('j' :: 's' :: 'o' :: 'n' :: (j ++ (fencePat ++ post)))))
      = pre ++ (fencePat ++ ('j' :: 's' :: 'o' :: 'n' :: (j ++ (fencePat ++ post)))))
    (hA : containsSub ("ABLES_START" : String).toList
        (pre ++ (fencePat ++ ('j' :: 's' :: 'o' :: 'n' :: (j ++ (fencePat ++ post)))))
      = false)
    (hLang : containsSub ("\x7b:.language-json\x7d" : String).toList
        (pre ++ (fencePat ++ ('j' :: 's' :: 'o' :: 'n' :: (j ++ (fencePat ++ post)))))
      = false)
    (hjne : j ≠ []) :
    cleanJsonString (String.mk (pre ++ (fencePat ++
        ('j' :: 's' :: 'o' :: 'n' :: (j ++ (fencePat ++ post))))))
      = String.mk (jsTrim j) := by
  have hcont : containsSub fencePat
      (pre ++ (fencePat ++ ('j' :: 's' :: 'o' :: 'n' :: (j ++ (fencePat ++ post)))))
      = true := containsSub_middle fencePat pre _
  have hfg : fenceGroup
      (pre ++ (fencePat ++ ('j' :: 's' :: 'o' :: 'n' :: (j ++ (fencePat ++ post)))))
      = some j := by
    rw [fenceGroup_skip _ pre hpre]
    exact fenceGroup_fence j post hj
  have hje : j.isEmpty = false := by
    cases j with
    | nil => exact absurd rfl hjne
    | cons a b => rfl
  rw [cleanJsonString]
  rw [show (String.mk (pre ++ (fencePat ++
      ('j' :: 's' :: 'o' :: 'n' :: (j ++ (fencePat ++ post)))))).toList
      = pre ++ (fencePat ++ ('j' :: 's' :: 'o' :: 'n' :: (j ++ (fencePat ++ post))))
      from rfl]
  rw [htrim, removeAll_id _ _ hA, removeAll_id _ _ hLang, hcont]
  simp only [if_true]
  rw [hfg]
  simp only [hje, Bool.false_eq_true, if_false]
  rw [jsTrim_idem]

/-- Claim C1 (amended): when the JSON object is wrapped in a markdown
`json` code fence (backtick-free prose before the fence, backtick-free
fence body, no noise-pattern occurrences, no surrounding white space),
the tolerant parser returns exactly the object obtained by strictly
parsing the first-`\x7b`-to-last-`\x7d` span of the fence-stripped text —
provided that span is the whole trimmed fence body and parses.  (For
prose around an *unfenced* object the equivalence fails: see the
counterexample — the current parser performs no brace-span location.) -/
theorem claim_C1_amended (pre j post : List Char) (v : Js)
    (hpre : ∀ c ∈ pre, c ≠ tickChar) (hj : ∀ c ∈ j, c ≠ tickChar)
    (htrim : jsTrim (pre ++ (fencePat ++
        ('j' :: 's' :: 'o' :: 'n' :: (j ++ (fencePat ++ post)))))
      = pre ++ (fencePat ++ ('j' :: 's' :: 'o' :: 'n' :: (j ++ (fencePat ++ post)))))
    (hA : containsSub ("ABLES_START" : String).toList
        (pre ++ (fencePat ++ ('j' :: 's' :: 'o' :: 'n' :: (j ++ (fencePat ++ post)))))
      = false)
    (hLang : containsSub ("\x7b:.language-json\x7d" : String).toList
        (pre ++ (fencePat ++ ('j' :: 's' :: 'o' :: 'n' :: (j ++ (fencePat ++ post)))))
      = false)
    (hparse : jsonParse (jsTrim j) = some v)
    (hhead : (jsTrim j).head? = some '\x7b')
    (hlast : (jsTrim j).getLast? = some '\x7d') :
    parseGenerativeJson (String.mk (pre ++ (fencePat ++
        ('j' :: 's' :: 'o' :: 'n' :: (j ++ (fencePat ++ post)))))) = some v ∧
    specSpanParse (String.mk (pre ++ (fencePat ++
        ('j' :: 's' :: 'o' :: 'n' :: (j ++ (fencePat ++ post)))))) = some v := by
  have hjne : j ≠ [] := by
    intro e
    subst e
    rw [show jsTrim ([] : List Char) = [] from rfl] at hhead
    cases hhead
  have hclean := cleanJsonString_fence pre j post hpre hj htrim hA hLang hjne
  have htl : (String.mk (jsTrim j)).toList = jsTrim j := rfl
  constructor
  · rw [parseGenerativeJson, hclean, htl, hparse]
  · rw [specSpanParse, hclean, htl, braceSpan_of_braces _ hhead hlast]
    simp only [Option.some_bind]
    exact hparse

/-- Claim C1 (counterexample): for prose commentary around an unfenced
JSON object the tolerant parser throws (it never locates the brace span),
while strictly parsing the first-`\x7b`-to-last-`\x7d` span of the
fence-stripped text succeeds — so the two do not return the same object. -/
theorem claim_C1_counterexample :
    parseGenerativeJson "Here is the analysis: \x7b\"title\": \"X\"\x7d Enjoy!" = none ∧
    specSpanParse "Here is the analysis: \x7b\"title\": \"X\"\x7d Enjoy!"
      = some (Js.obj [("title", Js.str "X")]) ∧
    parseGenerativeJson "Here is the analysis: \x7b\"title\": \"X\"\x7d Enjoy!"
      ≠ specSpanParse "Here is the analysis: \x7b\"title\": \"X\"\x7d Enjoy!" :=
  ⟨rfl, rfl, by decide⟩

/-- Claim C1 (witness): the amended equivalence at a concrete fenced
response. -/
theorem claim_C1_witness :
    parseGenerativeJson (String.mk (("Here you go:\n" : String).toList ++
      (fencePat ++ ('j' :: 's' :: 'o' :: 'n' ::
        (("\n\x7b\"title\": \"X\"\x7d\n" : String).toList ++
          (fencePat ++ (" Thanks!" : String).toList))))))
      = some (Js.obj [("title", Js.str "X")]) ∧
    specSpanParse (String.mk (("Here you go:\n" : String).toList ++
      (fencePat ++ ('j' :: 's' :: 'o' :: 'n' ::
        (("\n\x7b\"title\": \"X\"\x7d\n" : String).toList ++
          (fencePat ++ (" Thanks!" : String).toList))))))
      = some (Js.obj [("title", Js.str "X")]) :=
  claim_C1_amended ("Here you go:\n" : String).toList
    ("\n\x7b\"title\": \"X\"\x7d\n" : String).toList
    (" Thanks!" : String).toList (Js.obj [("title", Js.str "X")])
    (by decide) (by decide) rfl rfl rfl rfl rfl rfl
